import Mathlib

/-!
Verification of the workflow trigger model and scheduler-reconciliation engine
of the `jbro` python backend (`workflow_models.py`, `workflow_manager.py`,
`scheduler.py`).  The python code is shallowly embedded: JSON-ish python values
become the inductive `Value`, pydantic validation becomes `validateWorkflow`,
the module-global APScheduler job table and the `WorkflowManager` state become
the record `SysState`, and each python method becomes a Lean function on it.
Python exceptions raised during validation (pydantic `ValidationError` and any
`TypeError` escaping the config validator) are modelled as `Except.error`,
because every call site wraps validation in `except Exception` and turns the
exception into a `None` result.  The external job-engine call
`CronTrigger.from_crontab` is modelled by `fromCrontabOk` (the 5-field check
plus the per-field crontab compilation of the apscheduler cron trigger), and
the durable write of `_save_workflows` by `WriteMode`, distinguishing a
failure before `open(path, 'w')` from one after the open has truncated the
file.
-/

set_option autoImplicit false

namespace Jbro

/-- A python/JSON value, the payload type of workflow documents. -/
inductive Value where
  | null : Value
  | bool (b : Bool) : Value
  | int (n : Int) : Value
  | str (s : String) : Value
  | list (xs : List Value) : Value
  | dict (xs : List (String × Value)) : Value

-- Decidable equality for `Value` (the nested inductive defeats `deriving`).
mutual

def valueDecEq : (a b : Value) → Decidable (a = b)
  | .null, .null => isTrue rfl
  | .null, .bool _ => isFalse (fun h => Value.noConfusion h)
  | .null, .int _ => isFalse (fun h => Value.noConfusion h)
  | .null, .str _ => isFalse (fun h => Value.noConfusion h)
  | .null, .list _ => isFalse (fun h => Value.noConfusion h)
  | .null, .dict _ => isFalse (fun h => Value.noConfusion h)
  | .bool _, .null => isFalse (fun h => Value.noConfusion h)
  | .bool a, .bool b =>
    if h : a = b then isTrue (by rw [h]) else
      isFalse (fun hh => h (Value.bool.inj hh))
  | .bool _, .int _ => isFalse (fun h => Value.noConfusion h)
  | .bool _, .str _ => isFalse (fun h => Value.noConfusion h)
  | .bool _, .list _ => isFalse (fun h => Value.noConfusion h)
  | .bool _, .dict _ => isFalse (fun h => Value.noConfusion h)
  | .int _, .null => isFalse (fun h => Value.noConfusion h)
  | .int _, .bool _ => isFalse (fun h => Value.noConfusion h)
  | .int a, .int b =>
    if h : a = b then isTrue (by rw [h]) else
      isFalse (fun hh => h (Value.int.inj hh))
  | .int _, .str _ => isFalse (fun h => Value.noConfusion h)
  | .int _, .list _ => isFalse (fun h => Value.noConfusion h)
  | .int _, .dict _ => isFalse (fun h => Value.noConfusion h)
  | .str _, .null => isFalse (fun h => Value.noConfusion h)
  | .str _, .bool _ => isFalse (fun h => Value.noConfusion h)
  | .str _, .int _ => isFalse (fun h => Value.noConfusion h)
  | .str a, .str b =>
    if h : a = b then isTrue (by rw [h]) else
      isFalse (fun hh => h (Value.str.inj hh))
  | .str _, .list _ => isFalse (fun h => Value.noConfusion h)
  | .str _, .dict _ => isFalse (fun h => Value.noConfusion h)
  | .list _, .null => isFalse (fun h => Value.noConfusion h)
  | .list _, .bool _ => isFalse (fun h => Value.noConfusion h)
  | .list _, .int _ => isFalse (fun h => Value.noConfusion h)
  | .list _, .str _ => isFalse (fun h => Value.noConfusion h)
  | .list xs, .list ys =>
    match valueListDecEq xs ys with
    | isTrue h => isTrue (by rw [h])
    | isFalse h => isFalse (fun hh => h (Value.list.inj hh))
  | .list _, .dict _ => isFalse (fun h => Value.noConfusion h)
  | .dict _, .null => isFalse (fun h => Value.noConfusion h)
  | .dict _, .bool _ => isFalse (fun h => Value.noConfusion h)
  | .dict _, .int _ => isFalse (fun h => Value.noConfusion h)
  | .dict _, .str _ => isFalse (fun h => Value.noConfusion h)
  | .dict _, .list _ => isFalse (fun h => Value.noConfusion h)
  | .dict xs, .dict ys =>
    match valueDictDecEq xs ys with
    | isTrue h => isTrue (by rw [h])
    | isFalse h => isFalse (fun hh => h (Value.dict.inj hh))

def valueListDecEq : (a b : List Value) → Decidable (a = b)
  | [], [] => isTrue rfl
  | [], _ :: _ => isFalse (fun h => List.noConfusion h)
  | _ :: _, [] => isFalse (fun h => List.noConfusion h)
  | x :: xs, y :: ys =>
    match valueDecEq x y with
    | isFalse h => isFalse (fun hh => h (List.cons.inj hh).1)
    | isTrue h1 =>
      match valueListDecEq xs ys with
      | isTrue h2 => isTrue (by rw [h1, h2])
      | isFalse h2 => isFalse (fun hh => h2 (List.cons.inj hh).2)

def valueDictDecEq : (a b : List (String × Value)) → Decidable (a = b)
  | [], [] => isTrue rfl
  | [], _ :: _ => isFalse (fun h => List.noConfusion h)
  | _ :: _, [] => isFalse (fun h => List.noConfusion h)
  | (k, x) :: xs, (k', y) :: ys =>
    if hk : k = k' then
      match valueDecEq x y with
      | isFalse h =>
        isFalse (fun hh => h (congrArg Prod.snd (List.cons.inj hh).1))
      | isTrue h1 =>
        match valueDictDecEq xs ys with
        | isTrue h2 => isTrue (by rw [hk, h1, h2])
        | isFalse h2 => isFalse (fun hh => h2 (List.cons.inj hh).2)
    else
      isFalse (fun hh => hk (congrArg Prod.fst (List.cons.inj hh).1))

end

instance : DecidableEq Value := valueDecEq

/-- First-match lookup in a python dict rendered as an insertion-ordered
association list (`d.get(k)` / `d[k]` on present keys). -/
def lookupD {α : Type} : List (String × α) → String → Option α
  | [], _ => none
  | (k', v) :: rest, k => if k' = k then some v else lookupD rest k

/-- Python dict assignment `d[k] = v`: replaces the value in place when the key
exists (keeping its position), appends otherwise. -/
def dictInsert {α : Type} : List (String × α) → String → α → List (String × α)
  | [], k, v => [(k, v)]
  | (k', v') :: rest, k, v =>
    if k' = k then (k, v) :: rest else (k', v') :: dictInsert rest k v

/-- Python `str.split()` (no argument): split on runs of whitespace,
discarding empty tokens.  Defined over the character list so that it reduces
cleanly in the kernel. -/
def splitWsAux : List Char → List Char → List String
  | [], acc => if acc.isEmpty then [] else [String.mk acc.reverse]
  | c :: cs, acc =>
    if c.isWhitespace then
      if acc.isEmpty then splitWsAux cs []
      else String.mk acc.reverse :: splitWsAux cs []
    else splitWsAux cs (c :: acc)

def pySplit (s : String) : List String :=
  splitWsAux s.data []

/-- Python truthiness on the embedded values (`if not x:`). -/
def pyFalsy : Value → Bool
  | .null => true
  | .bool b => !b
  | .int n => n == 0
  | .str s => s.data.isEmpty
  | .list xs => xs.isEmpty
  | .dict xs => xs.isEmpty

-- Python `repr` on the embedded values (used through `str` on lists and
-- dicts).  `\x7b`/`\x7d` are literal braces, `\x27` a literal single quote.
mutual

def pyRepr : Value → String
  | .null => "None"
  | .bool true => "True"
  | .bool false => "False"
  | .int n => toString n
  | .str s => "\x27" ++ s ++ "\x27"
  | .list xs => "[" ++ pyReprListAux xs ++ "]"
  | .dict xs => "\x7b" ++ pyReprDictAux xs ++ "\x7d"

def pyReprListAux : List Value → String
  | [] => ""
  | [x] => pyRepr x
  | x :: y :: rest => pyRepr x ++ ", " ++ pyReprListAux (y :: rest)

def pyReprDictAux : List (String × Value) → String
  | [] => ""
  | [(k, v)] => "\x27" ++ k ++ "\x27: " ++ pyRepr v
  | (k, v) :: p :: rest => "\x27" ++ k ++ "\x27: " ++ pyRepr v ++ ", " ++ pyReprDictAux (p :: rest)

end

/-- Python `str(...)` on the embedded values: identity on strings, `repr`-like
rendering elsewhere (used by `str(v['cron_expression'])`). -/
def pyStr : Value → String
  | .str s => s
  | v => pyRepr v

/-- Python `key in v` membership (substring on strings, element on lists,
key on dicts; `TypeError` on the rest, surfaced as `Except.error` since every
call site catches it). -/
def charsHavePrefix : List Char → List Char → Bool
  | [], _ => true
  | _ :: _, [] => false
  | a :: as, b :: bs => a = b && charsHavePrefix as bs

def charsContain (pat : List Char) : List Char → Bool
  | [] => pat.isEmpty
  | c :: cs => charsHavePrefix pat (c :: cs) || charsContain pat cs

def pyContains (v : Value) (key : String) : Except String Bool :=
  match v with
  | .dict xs => .ok (lookupD xs key).isSome
  | .str s => .ok (charsContain key.data s.data)
  | .list xs => .ok (xs.contains (.str key))
  | _ => .error "TypeError: argument is not iterable"

/-- Python subscript `v[key]` with a string key: dict lookup, `KeyError` when
absent, `TypeError` on non-dicts (both surfaced as `Except.error`). -/
def pyIndex (v : Value) (key : String) : Except String Value :=
  match v with
  | .dict xs =>
    match lookupD xs key with
    | some x => .ok x
    | none => .error ("KeyError: " ++ key)
  | _ => .error "TypeError: value is not subscriptable"

-- ------------------------------------------------------------------
-- Typed model (workflow_models.py)
-- ------------------------------------------------------------------

/-- `TargetConnectorType` enum from `workflow_models.py`. -/
inductive TargetConnectorType where
  | browser : TargetConnectorType
  | gmail : TargetConnectorType
  deriving DecidableEq

def TargetConnectorType.toStr : TargetConnectorType → String
  | .browser => "browser"
  | .gmail => "gmail"

def TargetConnectorType.ofStr : String → Option TargetConnectorType
  | "browser" => some .browser
  | "gmail" => some .gmail
  | _ => none

/-- The `Trigger` pydantic model: `trigger_type` is a plain `str` field, the
`config` a `Dict[str, Any]`. -/
structure Trigger where
  trigger_type : String
  config : List (String × Value)
  deriving DecidableEq

/-- The `BaseAction` pydantic model. -/
structure BaseAction where
  action_type : String
  params : List (String × Value)
  deriving DecidableEq

/-- The `Workflow` pydantic model. -/
structure Workflow where
  id : String
  name : String
  trigger : Trigger
  target_connector : TargetConnectorType
  action : BaseAction
  is_enabled : Bool
  deriving DecidableEq

-- ------------------------------------------------------------------
-- Validation (Workflow.model_validate and the config validator)
-- ------------------------------------------------------------------

-- `Trigger.check_config_for_trigger_type` from `workflow_models.py`,
-- translated clause by clause, deepest stage first.  Each `check...` def is
-- one stage of the python validator body; `check_config_for_trigger_type`
-- is their composition.  `trigger_type_value` is `values.get('trigger_type')`;
-- both a missing key and the falsy empty string skip the checks, exactly as
-- `if not trigger_type_value: return v` does.

/-- The field-count test `5 <= len(str(x).split()) <= 6`. -/
def cronPartsOk (expr : Value) : Bool :=
  decide (5 ≤ (pySplit (pyStr expr)).length) && decide ((pySplit (pyStr expr)).length ≤ 6)

def checkCronLength (v expr : Value) : Except String Value :=
  if cronPartsOk expr then .ok v
  else .error "Cron expression must have 5 or 6 parts"

def checkCronIndex (v : Value) : Except String Value :=
  match pyIndex v "cron_expression" with
  | .error e => .error e
  | .ok expr => checkCronLength v expr

/-- The `cron` arm of the validator. -/
def checkCron (v : Value) : Except String Value :=
  match pyContains v "cron_expression" with
  | .error e => .error e
  | .ok has =>
    if !has then .error "Cron trigger config must contain cron_expression"
    else checkCronIndex v

def checkEventType (v : Value) : Except String Value :=
  match pyContains v "event_type" with
  | .error e => .error e
  | .ok h2 =>
    if !h2 then .error "Event trigger config must contain event_source and event_type"
    else .ok v

/-- The `event` arm of the validator (the python `or` of the two membership
tests evaluates the second only when the first key is present). -/
def checkEvent (v : Value) : Except String Value :=
  match pyContains v "event_source" with
  | .error e => .error e
  | .ok h1 =>
    if !h1 then .error "Event trigger config must contain event_source and event_type"
    else checkEventType v

def checkMcpsItems (v : Value) (items : List Value) : Except String Value :=
  if items.all (fun i => match i with | .str _ => true | _ => false) then .ok v
  else .error "required_tools_mcps must be a list of strings, if provided."

def checkMcpsList (v mv : Value) : Except String Value :=
  match mv with
  | .list items => checkMcpsItems v items
  | _ => .error "required_tools_mcps must be a list of strings, if provided."

def checkMcps (v : Value) : Except String Value :=
  match pyContains v "required_tools_mcps" with
  | .error e => .error e
  | .ok h3 =>
    if !h3 then .ok v
    else
      match pyIndex v "required_tools_mcps" with
      | .error e => .error e
      | .ok mv => checkMcpsList v mv

def checkIntervalLength (v ic : Value) : Except String Value :=
  if cronPartsOk ic then checkMcps v
  else .error "Semantic condition check_interval_cron must be a cron string with 5 or 6 parts"

def checkInterval (v : Value) : Except String Value :=
  match pyContains v "check_interval_cron" with
  | .error e => .error e
  | .ok h2 =>
    if !h2 then .error "Semantic condition trigger config must contain check_interval_cron"
    else
      match pyIndex v "check_interval_cron" with
      | .error e => .error e
      | .ok ic => checkIntervalLength v ic

/-- `not isinstance(cd, str) or not cd.strip()` (a string is all-whitespace
exactly when its whitespace split is empty), then the interval checks. -/
def checkConditionStr (v : Value) (s : String) : Except String Value :=
  if (pySplit s).isEmpty then .error "condition_description must be a non-empty string"
  else checkInterval v

def checkConditionValue (v cd : Value) : Except String Value :=
  match cd with
  | .str s => checkConditionStr v s
  | _ => .error "condition_description must be a non-empty string"

/-- The `semantic_condition` arm of the validator. -/
def checkSemantic (v : Value) : Except String Value :=
  match pyContains v "condition_description" with
  | .error e => .error e
  | .ok h1 =>
    if !h1 then .error "Semantic condition trigger config must contain condition_description"
    else
      match pyIndex v "condition_description" with
      | .error e => .error e
      | .ok cd => checkConditionValue v cd

/-- `Trigger.check_config_for_trigger_type`, composed from the stages above.
An unrecognized `trigger_type` falls through every `elif` and returns `v`. -/
def check_config_for_trigger_type (trigger_type_value : Option String) (v : Value) :
    Except String Value :=
  match trigger_type_value with
  | none => .ok v
  | some tt =>
    if tt = "" then .ok v
    else if tt = "cron" then checkCron v
    else if tt = "event" then checkEvent v
    else if tt = "semantic_condition" then checkSemantic v
    else .ok v

/-- Pydantic validation of a `Trigger` value: `trigger_type` must be a string,
`config` must be present, the before-validator runs on the raw config, and the
result must be a dict. -/
def validateTrigger (v : Value) : Except String Trigger :=
  match v with
  | .dict xs =>
    match lookupD xs "trigger_type" with
    | some (.str tt) =>
      (match lookupD xs "config" with
       | none => .error "Field required: config"
       | some cfgRaw =>
         match check_config_for_trigger_type (some tt) cfgRaw with
         | .error e => .error e
         | .ok (.dict entries) => .ok ⟨tt, entries⟩
         | .ok _ => .error "config must be a valid dictionary")
    | some _ => .error "trigger_type must be a string"
    | none => .error "Field required: trigger_type"
  | _ => .error "Trigger input must be a valid dictionary"

/-- Pydantic validation of a `BaseAction` value: `action_type` a required
string, `params` an optional dict defaulting to the empty dict. -/
def validateAction (v : Value) : Except String BaseAction :=
  match v with
  | .dict xs =>
    match lookupD xs "action_type" with
    | some (.str a) =>
      (match lookupD xs "params" with
       | none => .ok ⟨a, []⟩
       | some (.dict ps) => .ok ⟨a, ps⟩
       | some _ => .error "params must be a valid dictionary")
    | some _ => .error "action_type must be a string"
    | none => .error "Field required: action_type"
  | _ => .error "BaseAction input must be a valid dictionary"

/-- `Workflow.model_validate` on a raw document.  Strings are accepted only as
strings and `is_enabled` only as a bool (pydantic lax coercions from other
scalar types are not modelled; no claim depends on them).  Unknown extra keys
are ignored, as pydantic does by default.  `is_enabled` defaults to `True`. -/
def validateWorkflow (v : Value) : Except String Workflow :=
  match v with
  | .dict xs =>
    match lookupD xs "id" with
    | some (.str i) =>
      (match lookupD xs "name" with
       | some (.str nm) =>
         (match lookupD xs "trigger" with
          | some tv =>
            (match validateTrigger tv with
             | .error e => .error e
             | .ok trig =>
               (match lookupD xs "target_connector" with
                | some (.str tcs) =>
                  (match TargetConnectorType.ofStr tcs with
                   | some tc =>
                     (match lookupD xs "action" with
                      | some av =>
                        (match validateAction av with
                         | .error e => .error e
                         | .ok act =>
                           (match lookupD xs "is_enabled" with
                            | none => .ok ⟨i, nm, trig, tc, act, true⟩
                            | some (.bool b) => .ok ⟨i, nm, trig, tc, act, b⟩
                            | some _ => .error "is_enabled must be a boolean"))
                      | none => .error "Field required: action")
                   | none => .error "target_connector must be one of browser, gmail")
                | some _ => .error "target_connector must be a string"
                | none => .error "Field required: target_connector"))
          | none => .error "Field required: trigger")
       | some _ => .error "name must be a string"
       | none => .error "Field required: name")
    | some _ => .error "id must be a string"
    | none => .error "Field required: id"
  | _ => .error "Workflow input must be a valid dictionary"

-- ------------------------------------------------------------------
-- model_dump (serialization used by _save_workflows and update_workflow)
-- ------------------------------------------------------------------

def dumpTrigger (t : Trigger) : Value :=
  .dict [("trigger_type", .str t.trigger_type), ("config", .dict t.config)]

def dumpAction (a : BaseAction) : Value :=
  .dict [("action_type", .str a.action_type), ("params", .dict a.params)]

/-- `Workflow.model_dump()`: fields in declaration order; the str-enum
`target_connector` serializes as its string value. -/
def dumpEntries (w : Workflow) : List (String × Value) :=
  [("id", .str w.id), ("name", .str w.name), ("trigger", dumpTrigger w.trigger),
   ("target_connector", .str w.target_connector.toStr), ("action", dumpAction w.action),
   ("is_enabled", .bool w.is_enabled)]

def dumpWorkflow (w : Workflow) : Value :=
  .dict (dumpEntries w)

-- ------------------------------------------------------------------
-- CronTrigger.from_crontab (the apscheduler cron trigger), the external
-- job-engine call made by scheduler.add_or_update_job.
--
-- from_crontab splits the expression on whitespace and raises ValueError
-- unless there are exactly 5 fields (minute, hour, day, month,
-- day_of_week).  The CronTrigger constructor then compiles each field:
-- the field string is split on commas and each piece is matched against
-- the field's expression patterns in order - AllExpression
-- (star with an optional /step), RangeExpression (first, first-last,
-- first/step, first-last/step over decimal digits), and then the
-- field-specific forms: MonthRangeExpression (month names) for the month
-- field, WeekdayRangeExpression (weekday names) for day_of_week, and
-- LastDayOfMonthExpression (a piece starting with "last",
-- case-insensitively) for the day field.  The first pattern that matches
-- is constructed and range-checked; a piece matching no pattern, a zero
-- step, an out-of-order or out-of-range bound, a step exceeding the
-- covered range, or an unknown month/weekday name each raise ValueError.
-- scheduler.add_or_update_job catches every such exception and only logs
-- it, so the model is Bool acceptance: each ValueError path is `false`.
--
-- WeekdayPositionExpression ("1st mon" in the day field) is omitted: its
-- pattern demands a literal space, and a field produced by the whitespace
-- split can never contain one.  The regex classes \d and [a-z] (the
-- latter with IGNORECASE) are modelled over ASCII.
-- ------------------------------------------------------------------

/-- Python `str.split(',')`: split on every comma, keeping empty pieces. -/
def splitCommaAux : List Char → List Char → List (List Char)
  | [], acc => [acc.reverse]
  | c :: cs, acc =>
    if c = ',' then acc.reverse :: splitCommaAux cs [] else splitCommaAux cs (c :: acc)

def splitComma (cs : List Char) : List (List Char) :=
  splitCommaAux cs []

/-- Python `int(...)` on a digit run already matched by the regex. -/
def digitsToNat (ds : List Char) : Nat :=
  ds.foldl (fun n c => n * 10 + (c.toNat - 48)) 0

/-- The AllExpression pattern (a full match of star with an optional /step):
returns the optional step when the piece matches. -/
def matchStarExpr : List Char → Option (Option Nat)
  | ['*'] => some none
  | '*' :: '/' :: ds =>
    if !ds.isEmpty && ds.all Char.isDigit then some (some (digitsToNat ds)) else none
  | _ => none

/-- The step suffix of the RangeExpression pattern: empty, or a slash
followed by a digit run (a full match). -/
def parseStepSuffix : List Char → Option (Option Nat)
  | [] => some none
  | '/' :: ds =>
    if !ds.isEmpty && ds.all Char.isDigit then some (some (digitsToNat ds)) else none
  | _ => none

/-- The optional `-last` part of the RangeExpression pattern followed by the
step suffix. -/
def parseDashSuffix (cs : List Char) : Option (Option Nat × Option Nat) :=
  match cs with
  | '-' :: rest =>
    let ds := rest.takeWhile Char.isDigit
    if ds.isEmpty then none
    else
      match parseStepSuffix (rest.dropWhile Char.isDigit) with
      | some st => some (some (digitsToNat ds), st)
      | none => none
  | _ =>
    match parseStepSuffix cs with
    | some st => some (none, st)
    | none => none

/-- The RangeExpression pattern (a full match of digits, an optional dash
and digits, an optional slash and digits): first, optional last, optional
step. -/
def matchRangeExpr (cs : List Char) : Option (Nat × Option Nat × Option Nat) :=
  let ds := cs.takeWhile Char.isDigit
  if ds.isEmpty then none
  else
    match parseDashSuffix (cs.dropWhile Char.isDigit) with
    | some (l, st) => some (digitsToNat ds, l, st)
    | none => none

/-- AllExpression semantics for a field with bounds mn..mx: a step of 0 is
rejected at construction, and validate_range rejects a step larger than the
field's whole range. -/
def starExprOk (mn mx : Nat) (st : Option Nat) : Bool :=
  match st with
  | none => true
  | some s => decide (0 < s) && decide (s ≤ mx - mn)

/-- Python `last or MAX`: a stored last of 0 is falsy, so the field maximum
is used in its place (and also when last is absent). -/
def pyOrMax (mx : Nat) : Option Nat → Nat
  | some l => if l = 0 then mx else l
  | none => mx

/-- RangeExpression semantics for a field with bounds mn..mx.  Construction:
a zero step is rejected; a missing last with no step defaults to first; a
first above last is rejected.  validate_range: the inherited whole-range
step bound, a first below the field minimum, a last above the field
maximum, and a step exceeding `(last or MAX) - first` (an Int, negative
when first overshoots the maximum with no last) are each rejected. -/
def rangeExprOk (mn mx first : Nat) (lastOpt stepOpt : Option Nat) : Bool :=
  if stepOpt = some 0 then false
  else
    let lst := if lastOpt.isNone && stepOpt.isNone then some first else lastOpt
    if (match lst with | some l => decide (l < first) | none => false) then false
    else if (match stepOpt with | some s => decide (mx - mn < s) | none => false) then false
    else if decide (first < mn) then false
    else if (match lst with | some l => decide (mx < l) | none => false) then false
    else if (match stepOpt with
             | some s => decide ((pyOrMax mx lst : Int) - (first : Int) < (s : Int))
             | none => false) then false
    else true

/-- The MONTHS list of the month-name expression (1-based positions). -/
def MONTHS : List String :=
  ["jan", "feb", "mar", "apr", "may", "jun", "jul", "aug", "sep", "oct", "nov", "dec"]

/-- The WEEKDAYS list of the weekday-name expression (0-based positions). -/
def WEEKDAYS : List String :=
  ["mon", "tue", "wed", "thu", "fri", "sat", "sun"]

/-- Python `list.index` returning the position, absence as `none`. -/
def listIndex : List String → String → Option Nat
  | [], _ => none
  | x :: rest, s => if x = s then some 0 else (listIndex rest s).map (fun n => n + 1)

def lowerStr (s : List Char) : String :=
  String.mk (s.map Char.toLower)

/-- The shared name-range pattern of the month and weekday expressions: a
leading letter run, optionally a dash and a second letter run; the pattern
is unanchored at the end, so any trailing characters are ignored (a dash
not followed by letters simply ends the match). -/
def matchNameRange (cs : List Char) : Option (String × Option String) :=
  let a1 := cs.takeWhile Char.isAlpha
  if a1.isEmpty then none
  else
    match cs.dropWhile Char.isAlpha with
    | '-' :: r2 =>
      let a2 := r2.takeWhile Char.isAlpha
      if a2.isEmpty then some (lowerStr a1, none) else some (lowerStr a1, some (lowerStr a2))
    | _ => some (lowerStr a1, none)

/-- MonthRangeExpression: month names resolved through MONTHS (1-based),
then RangeExpression construction and range validation with no step.
`none`: the pattern did not match (the piece falls through to the
"Unrecognized expression" error). -/
def monthExprOk (cs : List Char) : Option Bool :=
  match matchNameRange cs with
  | none => none
  | some (a1, a2opt) =>
    match listIndex MONTHS a1 with
    | none => some false
    | some f =>
      match a2opt with
      | none => some (rangeExprOk 1 12 (f + 1) none none)
      | some a2 =>
        match listIndex MONTHS a2 with
        | none => some false
        | some l => some (rangeExprOk 1 12 (f + 1) (some (l + 1)) none)

/-- WeekdayRangeExpression: weekday names resolved through WEEKDAYS
(0-based), then RangeExpression construction and range validation with no
step. -/
def dowExprOk (cs : List Char) : Option Bool :=
  match matchNameRange cs with
  | none => none
  | some (a1, a2opt) =>
    match listIndex WEEKDAYS a1 with
    | none => some false
    | some f =>
      match a2opt with
      | none => some (rangeExprOk 0 6 f none none)
      | some a2 =>
        match listIndex WEEKDAYS a2 with
        | none => some false
        | some l => some (rangeExprOk 0 6 f (some l) none)

/-- LastDayOfMonthExpression: the pattern is the bare word "last",
case-insensitive and unanchored, so any piece starting with it matches. -/
def lastDayExprOk (cs : List Char) : Bool :=
  match cs.map Char.toLower with
  | 'l' :: 'a' :: 's' :: 't' :: _ => true
  | _ => false

/-- The five crontab fields `from_crontab` fills in. -/
inductive CronField where
  | minute : CronField
  | hour : CronField
  | day : CronField
  | month : CronField
  | day_of_week : CronField
  deriving DecidableEq

def fieldMin : CronField → Nat
  | .minute => 0
  | .hour => 0
  | .day => 1
  | .month => 1
  | .day_of_week => 0

def fieldMax : CronField → Nat
  | .minute => 59
  | .hour => 23
  | .day => 31
  | .month => 12
  | .day_of_week => 6

/-- BaseField.compile_expression: the compilers are tried in order
(AllExpression, RangeExpression, then the field-specific ones); the first
whose pattern matches is constructed and range-checked, and a piece no
pattern matches raises "Unrecognized expression". -/
def cronPieceOk (k : CronField) (cs : List Char) : Bool :=
  match matchStarExpr cs with
  | some st => starExprOk (fieldMin k) (fieldMax k) st
  | none =>
    match matchRangeExpr cs with
    | some (f, l, st) => rangeExprOk (fieldMin k) (fieldMax k) f l st
    | none =>
      match k with
      | .month =>
        match monthExprOk cs with
        | some b => b
        | none => false
      | .day_of_week =>
        match dowExprOk cs with
        | some b => b
        | none => false
      | .day => lastDayExprOk cs
      | _ => false

/-- BaseField.compile_expressions: the field string is split on commas and
every piece must compile. -/
def cronFieldOk (k : CronField) (s : String) : Bool :=
  (splitComma s.data).all (fun cs => cronPieceOk k cs)

/-- The five-field check of `from_crontab` plus the per-field compilation of
the CronTrigger constructor. -/
def crontabFieldsOk : List String → Bool
  | [f0, f1, f2, f3, f4] =>
    cronFieldOk CronField.minute f0 && cronFieldOk CronField.hour f1 &&
    cronFieldOk CronField.day f2 && cronFieldOk CronField.month f3 &&
    cronFieldOk CronField.day_of_week f4
  | _ => false

/-- Whether `CronTrigger.from_crontab(s)` succeeds (made a trigger) rather
than raising ValueError. -/
def fromCrontabOk (s : String) : Bool :=
  crontabFieldsOk (pySplit s)

-- ------------------------------------------------------------------
-- System state: WorkflowManager plus the module-global scheduler
-- ------------------------------------------------------------------

/-- The persisted workflow file: absent, unparseable JSON, or a JSON value. -/
inductive FileContent where
  | missing : FileContent
  | corrupt : FileContent
  | json (v : Value) : FileContent
  deriving DecidableEq

/-- What the durable write attempt of `_save_workflows` does in the
environment.  `ok`: the dump is written.  `failBeforeOpen`: `os.makedirs` or
`open(path, 'w')` itself raises, before the file is touched, so the previous
content survives.  `failDuringWrite`: the open succeeded - truncating the
file - and `json.dump` (or the close) then raises, leaving a strict prefix
of the dump on disk, which no longer decodes as the workflow list; modelled
as `FileContent.corrupt`.  In every failure case the exception is caught and
logged, never re-raised. -/
inductive WriteMode where
  | ok : WriteMode
  | failBeforeOpen : WriteMode
  | failDuringWrite : WriteMode
  deriving DecidableEq

/-- The combined state: the manager dict `self.workflows` (insertion-ordered,
keyed by id), the APScheduler job table (keyed by job id, each job holding the
workflow snapshot passed as `args=[workflow]`), the persisted file, and the
environment's behaviour on the durable write. -/
structure SysState where
  workflows : List (String × Workflow)
  jobs : List (String × Workflow)
  file : FileContent
  writeMode : WriteMode
  deriving DecidableEq

/-- `scheduler.remove_job`: `JobLookupError` on an absent id is swallowed, so
this is total and idempotent. -/
def remove_job (st : SysState) (workflow_id : String) : SysState :=
  { st with jobs := st.jobs.filter (fun p => p.1 != workflow_id) }

/-- `scheduler.add_or_update_job` from `scheduler.py`.  The job engine call
`CronTrigger.from_crontab(cron_expression)` is modelled by `fromCrontabOk`:
a string whose whitespace split has exactly 5 fields, each compiling as a
crontab field.  A non-string value (on which `.split()` raises
`AttributeError`) or a string `from_crontab` rejects with ValueError hits
the surrounding `except Exception`, which logs and leaves the job table
unchanged; a registered trigger is stored with `replace_existing=True`. -/
def add_or_update_job (st : SysState) (w : Workflow) : SysState :=
  if !w.is_enabled then remove_job st w.id
  else if w.trigger.trigger_type = "cron" then
    match lookupD w.trigger.config "cron_expression" with
    | none => remove_job st w.id
    | some v =>
      if pyFalsy v then remove_job st w.id
      else
        match v with
        | .str s =>
          if fromCrontabOk s then
            { st with jobs := dictInsert st.jobs w.id w }
          else st
        | _ => st
  else remove_job st w.id

-- ------------------------------------------------------------------
-- WorkflowManager (workflow_manager.py)
-- ------------------------------------------------------------------

/-- The record loop of `_load_workflows`.  A dict record is validated:
successes are stored under their id, failures are skipped after the handler
logs `workflow_data.get('id', 'Unknown ID')`.  A record that is not a dict
aborts the whole loop: `model_validate` raises, the handler's own
`workflow_data.get` call then raises `AttributeError` (only dicts have
`get`), and the outer `except Exception` of `_load_workflows` catches it,
keeping the records stored so far and abandoning the rest. -/
def loadList : List Value → List (String × Workflow) → List (String × Workflow)
  | [], acc => acc
  | d :: rest, acc =>
    match d with
    | .dict es =>
      match validateWorkflow (.dict es) with
      | .ok w => loadList rest (dictInsert acc w.id w)
      | .error _ => loadList rest acc
    | _ => acc

/-- `WorkflowManager._load_workflows`: missing file and undecodable JSON give
the empty dict; JSON that is not a list is rejected wholesale; otherwise each
record is validated individually. -/
def load_workflows : FileContent → List (String × Workflow)
  | .missing => []
  | .corrupt => []
  | .json (.list items) => loadList items []
  | .json _ => []

/-- `WorkflowManager._save_workflows`: serializes the whole collection and
writes it through `open(self.workflow_file_path, 'w')`.  `IOError` and every
other exception are caught, logged and never re-raised; what the file holds
afterwards depends on where the failure struck (see `WriteMode`): before the
open the previous content survives, during the write the open has already
truncated the file and a partial dump remains. -/
def save_workflows (st : SysState) : SysState :=
  match st.writeMode with
  | .ok => { st with file := .json (.list (st.workflows.map (fun p => dumpWorkflow p.2))) }
  | .failBeforeOpen => st
  | .failDuringWrite => { st with file := .corrupt }

/-- `workflow_data.setdefault('id', str(uuid.uuid4()))`: `freshId` stands for
the uuid the environment would generate. -/
def setdefaultId (doc : List (String × Value)) (freshId : String) : List (String × Value) :=
  if (lookupD doc "id").isSome then doc else doc ++ [("id", .str freshId)]

/-- `WorkflowManager.add_workflow`. -/
def add_workflow (st : SysState) (workflow_data : List (String × Value)) (freshId : String) :
    Option Workflow × SysState :=
  let used := setdefaultId workflow_data freshId
  match validateWorkflow (.dict used) with
  | .error _ => (none, st)
  | .ok w =>
    if (lookupD st.workflows w.id).isSome then (none, st)
    else
      let st1 := { st with workflows := dictInsert st.workflows w.id w }
      let st2 := save_workflows st1
      let st3 := add_or_update_job st2 w
      (some w, st3)

/-- The merge loop of `update_workflow`: `for key, value in
workflow_update_data.items(): updated_data[key] = value`. -/
def mergeDoc : List (String × Value) → List (String × Value) → List (String × Value)
  | base, [] => base
  | base, (k, v) :: rest => mergeDoc (dictInsert base k v) rest

/-- The complete merged document `update_workflow` validates: the dump of the
existing workflow, overwritten by the supplied fields, with the id forced
back to the original. -/
def mergedDoc (ex : Workflow) (upd : List (String × Value)) (workflow_id : String) :
    List (String × Value) :=
  dictInsert (mergeDoc (dumpEntries ex) upd) "id" (.str workflow_id)

/-- `WorkflowManager.update_workflow`. -/
def update_workflow (st : SysState) (workflow_id : String)
    (workflow_update_data : List (String × Value)) : Option Workflow × SysState :=
  match lookupD st.workflows workflow_id with
  | none => (none, st)
  | some ex =>
    match validateWorkflow (.dict (mergedDoc ex workflow_update_data workflow_id)) with
    | .error _ => (none, st)
    | .ok w =>
      let st1 := { st with workflows := dictInsert st.workflows workflow_id w }
      let st2 := save_workflows st1
      let st3 := add_or_update_job st2 w
      (some w, st3)

/-- `WorkflowManager.delete_workflow`. -/
def delete_workflow (st : SysState) (workflow_id : String) : Bool × SysState :=
  if (lookupD st.workflows workflow_id).isSome then
    let st1 := { st with workflows := st.workflows.filter (fun p => p.1 != workflow_id) }
    let st2 := save_workflows st1
    let st3 := remove_job st2 workflow_id
    (true, st3)
  else (false, st)

/-- Whether `_initialize_scheduler_jobs` (and the reconciliation invariant)
considers a workflow schedulable: enabled with a cron trigger. -/
def isScheduledCron (w : Workflow) : Bool :=
  w.is_enabled && w.trigger.trigger_type == "cron"

/-- The loop of `WorkflowManager._initialize_scheduler_jobs`, iterating over a
snapshot of `self.workflows.values()`. -/
def initJobs : SysState → List (String × Workflow) → SysState
  | st, [] => st
  | st, p :: rest =>
    initJobs (if isScheduledCron p.2 then add_or_update_job st p.2 else st) rest

/-- `WorkflowManager.__init__`: load the persisted collection, then seed the
(fresh, empty) scheduler from every enabled cron workflow. -/
def mkManager (f : FileContent) (wm : WriteMode) : SysState :=
  let ws := load_workflows f
  initJobs { workflows := ws, jobs := [], file := f, writeMode := wm } ws

-- ------------------------------------------------------------------
-- Derived notions used by the claims
-- ------------------------------------------------------------------

/-- The ids having a job in the scheduler job table. -/
def jobIds (st : SysState) : List String :=
  st.jobs.map Prod.fst

/-- The ids of stored workflows that are enabled with a cron trigger. -/
def enabledCronIds (ws : List (String × Workflow)) : List String :=
  (ws.filter (fun p => isScheduledCron p.2)).map Prod.fst

/-- The reconciliation invariant of the spec: ids with a scheduled job are
exactly the ids of stored enabled cron workflows. -/
def SchedInv (st : SysState) : Prop :=
  ∀ i, i ∈ jobIds st ↔ i ∈ enabledCronIds st.workflows

/-- A workflow whose schedule the job engine can actually register: when it
is enabled with a cron trigger, its `cron_expression` is a string that
`CronTrigger.from_crontab` accepts - exactly 5 whitespace-separated fields,
each one compiling as a crontab field. -/
def goodCron (w : Workflow) : Prop :=
  isScheduledCron w = true →
    ∃ s, lookupD w.trigger.config "cron_expression" = some (.str s) ∧ fromCrontabOk s = true

/-- Store keys agree with the ids of the stored workflows (true of every state
the manager constructs). -/
def KeysMatch (ws : List (String × Workflow)) : Prop :=
  ∀ p ∈ ws, p.1 = p.2.id

/-- The config validator succeeded on this trigger (every trigger the manager
stores satisfies it). -/
def TriggerOk (t : Trigger) : Prop :=
  check_config_for_trigger_type (some t.trigger_type) (.dict t.config) = .ok (.dict t.config)

/-- All stored workflows carry validator-approved triggers (true of every
state built through load/add/update). -/
def StoreTriggersOk (ws : List (String × Workflow)) : Prop :=
  ∀ p ∈ ws, TriggerOk p.2.trigger

/-- Number of records stored under a given id. -/
def countKey (ws : List (String × Workflow)) (k : String) : Nat :=
  (ws.filter (fun p => p.1 == k)).length

/-- The result shape every validator stage satisfies: either the input comes
back unchanged or a nonempty error message is produced. -/
def OkOrErr (r : Except String Value) (v : Value) : Prop :=
  r = .ok v ∨ ∃ e, r = .error e ∧ e ≠ ""


-- ------------------------------------------------------------------
-- Concrete example documents and states for the claims
-- ------------------------------------------------------------------

/-- The spec §8 example document: an enabled daily-8am cron browser workflow
(5-field cron expression), with an explicit id. -/
def exCronDoc : List (String × Value) :=
  [("id", .str "wf-daily"), ("name", .str "Daily"),
   ("trigger", .dict [("trigger_type", .str "cron"),
                      ("config", .dict [("cron_expression", .str "0 8 * * *")])]),
   ("target_connector", .str "browser"),
   ("action", .dict [("action_type", .str "navigate"),
                     ("params", .dict [("url", .str "https://example.com")])]),
   ("is_enabled", .bool true)]

/-- An enabled cron workflow whose expression has six whitespace-separated
fields: validation accepts it, the job engine's crontab parser does not. -/
def exSixFieldDoc : List (String × Value) :=
  [("id", .str "wf-six"), ("name", .str "Sixer"),
   ("trigger", .dict [("trigger_type", .str "cron"),
                      ("config", .dict [("cron_expression", .str "* * * * * *")])]),
   ("target_connector", .str "browser"),
   ("action", .dict [("action_type", .str "navigate"),
                     ("params", .dict [("url", .str "https://example.com")])]),
   ("is_enabled", .bool true)]

/-- The typed workflow `exSixFieldDoc` validates to. -/
def exSixFieldWorkflow : Workflow :=
  { id := "wf-six", name := "Sixer",
    trigger := { trigger_type := "cron",
                 config := [("cron_expression", .str "* * * * * *")] },
    target_connector := .browser,
    action := { action_type := "navigate",
                params := [("url", .str "https://example.com")] },
    is_enabled := true }

/-- The typed workflow `exCronDoc` validates to. -/
def exCronWorkflow : Workflow :=
  { id := "wf-daily", name := "Daily",
    trigger := { trigger_type := "cron",
                 config := [("cron_expression", .str "0 8 * * *")] },
    target_connector := .browser,
    action := { action_type := "navigate",
                params := [("url", .str "https://example.com")] },
    is_enabled := true }

/-- A fresh manager over a missing file whose durable writes succeed. -/
def exFreshState : SysState :=
  mkManager .missing WriteMode.ok

/-- A state whose durable writes fail before the file is opened
(`os.makedirs` or the open itself raises `IOError`). -/
def exBrokenDiskState : SysState :=
  { workflows := [], jobs := [], file := .json (.list []), writeMode := .failBeforeOpen }

/-- A state whose durable writes fail during the write, after
`open(path, 'w')` has truncated the file. -/
def exTruncDiskState : SysState :=
  { workflows := [], jobs := [], file := .json (.list []), writeMode := .failDuringWrite }

/-- The state after adding the six-field cron workflow to a fresh manager. -/
def exSixFieldState : SysState :=
  (add_workflow exFreshState exSixFieldDoc "unused-uuid").2

/-- A malformed workflow document: its cron trigger config lacks
`cron_expression`, so validation rejects it. -/
def exBadDoc : List (String × Value) :=
  [("id", .str "bad"), ("name", .str "Bad"),
   ("trigger", .dict [("trigger_type", .str "cron"), ("config", .dict [])]),
   ("target_connector", .str "browser"),
   ("action", .dict [("action_type", .str "navigate")])]

/-- The same malformed document as a persisted record. -/
def exBadRecord : Value :=
  .dict exBadDoc

-- ==================================================================
-- Lemmas
-- ==================================================================

theorem lookupD_dictInsert_self {α : Type} (m : List (String × α)) (k : String) (v : α) :
    lookupD (dictInsert m k v) k = some v := by
  induction m with
  | nil => simp [dictInsert, lookupD]
  | cons p rest ih =>
    obtain ⟨k', v'⟩ := p
    by_cases h : k' = k <;> simp [dictInsert, h, lookupD, ih]

theorem lookupD_dictInsert_ne {α : Type} (m : List (String × α)) (k k' : String) (v : α)
    (h : k' ≠ k) : lookupD (dictInsert m k v) k' = lookupD m k' := by
  have hne : ¬(k = k') := fun hh => h hh.symm
  induction m with
  | nil => simp [dictInsert, lookupD, hne]
  | cons p rest ih =>
    obtain ⟨k₀, v₀⟩ := p
    by_cases h₀ : k₀ = k
    · subst h₀
      simp only [dictInsert, if_pos rfl, lookupD, if_neg hne]
    · simp only [dictInsert, if_neg h₀, lookupD, ih]

theorem lookupD_eq_none_iff {α : Type} (m : List (String × α)) (k : String) :
    lookupD m k = none ↔ k ∉ m.map Prod.fst := by
  induction m with
  | nil => simp [lookupD]
  | cons p rest ih =>
    obtain ⟨k', v⟩ := p
    by_cases h : k' = k
    · subst h
      simp [lookupD]
    · have hne : ¬(k = k') := fun hh => h hh.symm
      simp [lookupD, h, ih, hne]

theorem lookupD_isSome_iff {α : Type} (m : List (String × α)) (k : String) :
    (lookupD m k).isSome = true ↔ k ∈ m.map Prod.fst := by
  rcases hl : lookupD m k with _ | x
  · have := (lookupD_eq_none_iff m k).1 hl
    simp [this]
  · simp only [Option.isSome_some, true_iff]
    by_contra hk
    have := (lookupD_eq_none_iff m k).2 hk
    rw [hl] at this
    exact Option.noConfusion this

theorem keys_dictInsert {α : Type} (m : List (String × α)) (k i : String) (v : α) :
    i ∈ (dictInsert m k v).map Prod.fst ↔ i = k ∨ i ∈ m.map Prod.fst := by
  induction m with
  | nil => simp [dictInsert]
  | cons p rest ih =>
    obtain ⟨k', v'⟩ := p
    by_cases h : k' = k
    · subst h
      simp [dictInsert]
    · simp [dictInsert, h, ih]
      tauto

theorem mergeDoc_lookup_not_supplied (base u : List (String × Value)) (k : String)
    (h : lookupD u k = none) : lookupD (mergeDoc base u) k = lookupD base k := by
  induction u generalizing base with
  | nil => rfl
  | cons p rest ih =>
    obtain ⟨ku, vu⟩ := p
    by_cases hk : ku = k
    · simp [lookupD, hk] at h
    · simp only [lookupD, hk, if_false] at h
      rw [mergeDoc, ih _ h, lookupD_dictInsert_ne _ _ _ _ (fun hh => hk hh.symm)]

-- ---- Error messages of the validator are never empty -----------------

theorem append_left_ne_empty (a b : String) (ha : a.data ≠ []) : a ++ b ≠ "" := by
  intro h
  apply ha
  have hd : (a ++ b).data = ([] : List Char) := by rw [h]
  rw [String.data_append] at hd
  exact (List.append_eq_nil.mp hd).1

theorem pyContains_error_ne {v : Value} {k e : String} (h : pyContains v k = .error e) :
    e ≠ "" := by
  unfold pyContains at h
  split at h
  · exact absurd h (by simp)
  · exact absurd h (by simp)
  · exact absurd h (by simp)
  · injection h with h1
    subst h1
    decide

theorem pyIndex_error_ne {v : Value} {k e : String} (h : pyIndex v k = .error e) :
    e ≠ "" := by
  unfold pyIndex at h
  split at h
  · split at h
    · exact absurd h (by simp)
    · injection h with h1
      subst h1
      exact append_left_ne_empty _ _ (by decide)
  · injection h with h1
    subst h1
    decide

-- ---- The config validator returns its input or a described error ----

theorem checkCronLength_cases (v expr : Value) : OkOrErr (checkCronLength v expr) v := by
  unfold OkOrErr checkCronLength
  cases cronPartsOk expr
  · exact Or.inr ⟨_, rfl, by decide⟩
  · exact Or.inl rfl

theorem checkCronIndex_cases (v : Value) : OkOrErr (checkCronIndex v) v := by
  unfold OkOrErr checkCronIndex
  rcases hi : pyIndex v "cron_expression" with e | expr
  · exact Or.inr ⟨e, rfl, pyIndex_error_ne hi⟩
  · exact checkCronLength_cases v expr

theorem checkCron_cases (v : Value) : OkOrErr (checkCron v) v := by
  unfold OkOrErr checkCron
  rcases hc : pyContains v "cron_expression" with e | has
  · exact Or.inr ⟨e, rfl, pyContains_error_ne hc⟩
  · cases has
    · exact Or.inr ⟨_, rfl, by decide⟩
    · exact checkCronIndex_cases v

theorem checkEventType_cases (v : Value) : OkOrErr (checkEventType v) v := by
  unfold OkOrErr checkEventType
  rcases hc : pyContains v "event_type" with e | b2
  · exact Or.inr ⟨e, rfl, pyContains_error_ne hc⟩
  · cases b2
    · exact Or.inr ⟨_, rfl, by decide⟩
    · exact Or.inl rfl

theorem checkEvent_cases (v : Value) : OkOrErr (checkEvent v) v := by
  unfold OkOrErr checkEvent
  rcases hc : pyContains v "event_source" with e | b1
  · exact Or.inr ⟨e, rfl, pyContains_error_ne hc⟩
  · cases b1
    · exact Or.inr ⟨_, rfl, by decide⟩
    · exact checkEventType_cases v

theorem checkMcpsItems_cases (v : Value) (items : List Value) :
    OkOrErr (checkMcpsItems v items) v := by
  unfold OkOrErr checkMcpsItems
  cases items.all (fun i => match i with | .str _ => true | _ => false)
  · exact Or.inr ⟨_, rfl, by decide⟩
  · exact Or.inl rfl

theorem checkMcpsList_cases (v mv : Value) : OkOrErr (checkMcpsList v mv) v := by
  unfold OkOrErr checkMcpsList
  rcases mv with _ | _ | _ | _ | items | _
  case list => exact checkMcpsItems_cases v items
  all_goals exact Or.inr ⟨_, rfl, by decide⟩

theorem checkMcps_cases (v : Value) : OkOrErr (checkMcps v) v := by
  unfold OkOrErr checkMcps
  rcases hc : pyContains v "required_tools_mcps" with e | b3
  · exact Or.inr ⟨e, rfl, pyContains_error_ne hc⟩
  · cases b3
    · exact Or.inl rfl
    · rcases hi : pyIndex v "required_tools_mcps" with e | mv
      · exact Or.inr ⟨e, rfl, pyIndex_error_ne hi⟩
      · exact checkMcpsList_cases v mv

theorem checkIntervalLength_cases (v ic : Value) : OkOrErr (checkIntervalLength v ic) v := by
  have h := checkMcps_cases v
  unfold OkOrErr checkIntervalLength
  cases cronPartsOk ic
  · exact Or.inr ⟨_, rfl, by decide⟩
  · exact h

theorem checkInterval_cases (v : Value) : OkOrErr (checkInterval v) v := by
  unfold OkOrErr checkInterval
  rcases hc : pyContains v "check_interval_cron" with e | b2
  · exact Or.inr ⟨e, rfl, pyContains_error_ne hc⟩
  · cases b2
    · exact Or.inr ⟨_, rfl, by decide⟩
    · rcases hi : pyIndex v "check_interval_cron" with e | ic
      · exact Or.inr ⟨e, rfl, pyIndex_error_ne hi⟩
      · exact checkIntervalLength_cases v ic

theorem checkConditionStr_cases (v : Value) (s : String) :
    OkOrErr (checkConditionStr v s) v := by
  have h := checkInterval_cases v
  unfold OkOrErr checkConditionStr
  cases (pySplit s).isEmpty
  · exact h
  · exact Or.inr ⟨_, rfl, by decide⟩

theorem checkConditionValue_cases (v cd : Value) : OkOrErr (checkConditionValue v cd) v := by
  unfold OkOrErr checkConditionValue
  rcases cd with _ | _ | _ | s | _ | _
  case str => exact checkConditionStr_cases v s
  all_goals exact Or.inr ⟨_, rfl, by decide⟩

theorem checkSemantic_cases (v : Value) : OkOrErr (checkSemantic v) v := by
  unfold OkOrErr checkSemantic
  rcases hc : pyContains v "condition_description" with e | b1
  · exact Or.inr ⟨e, rfl, pyContains_error_ne hc⟩
  · cases b1
    · exact Or.inr ⟨_, rfl, by decide⟩
    · rcases hi : pyIndex v "condition_description" with e | cd
      · exact Or.inr ⟨e, rfl, pyIndex_error_ne hi⟩
      · exact checkConditionValue_cases v cd

theorem check_config_cases (tt : Option String) (v : Value) :
    check_config_for_trigger_type tt v = .ok v ∨
      ∃ e, check_config_for_trigger_type tt v = .error e ∧ e ≠ "" := by
  rcases tt with _ | t
  · exact Or.inl rfl
  · by_cases h0 : t = ""
    · subst h0
      exact Or.inl rfl
    · by_cases h1 : t = "cron"
      · subst h1
        exact checkCron_cases v
      · by_cases h2 : t = "event"
        · subst h2
          exact checkEvent_cases v
        · by_cases h3 : t = "semantic_condition"
          · subst h3
            exact checkSemantic_cases v
          · left
            unfold check_config_for_trigger_type
            split
            next heq => exact Option.noConfusion heq
            next t' heq =>
              injection heq with heq1
              subst heq1
              rw [if_neg h0, if_neg h1, if_neg h2, if_neg h3]

theorem check_config_ok_eq {tt : Option String} {v u : Value}
    (h : check_config_for_trigger_type tt v = .ok u) : u = v := by
  rcases check_config_cases tt v with hc | ⟨e, hc, _⟩
  · rw [hc] at h
    exact (Except.ok.inj h).symm
  · rw [hc] at h
    exact Except.noConfusion h

theorem check_config_error_ne {tt : Option String} {v : Value} {e : String}
    (h : check_config_for_trigger_type tt v = .error e) : e ≠ "" := by
  rcases check_config_cases tt v with hc | ⟨e', hc, hne⟩
  · rw [hc] at h
    exact Except.noConfusion h
  · rw [hc] at h
    injection h with h1
    subst h1
    exact hne

-- ---- Totality of validation with nonempty error messages -------------

theorem validateTrigger_error_ne {v : Value} {e : String}
    (h : validateTrigger v = .error e) : e ≠ "" := by
  unfold validateTrigger at h
  repeat' split at h
  all_goals first
    | exact Except.noConfusion h
    | (cases h; decide)
    | (rename_i heq; cases h; exact check_config_error_ne heq)

theorem validateTrigger_total (v : Value) :
    (∃ t, validateTrigger v = .ok t) ∨ ∃ e, validateTrigger v = .error e ∧ e ≠ "" := by
  rcases hr : validateTrigger v with e | t
  · exact Or.inr ⟨e, rfl, validateTrigger_error_ne hr⟩
  · exact Or.inl ⟨t, rfl⟩

theorem validateAction_error_ne {v : Value} {e : String}
    (h : validateAction v = .error e) : e ≠ "" := by
  unfold validateAction at h
  repeat' split at h
  all_goals first
    | exact Except.noConfusion h
    | (cases h; decide)

theorem validateWorkflow_error_ne {v : Value} {e : String}
    (h : validateWorkflow v = .error e) : e ≠ "" := by
  unfold validateWorkflow at h
  repeat' split at h
  all_goals first
    | exact Except.noConfusion h
    | (cases h; decide)
    | (rename_i heq; cases h; exact validateTrigger_error_ne heq)
    | (rename_i heq; cases h; exact validateAction_error_ne heq)

theorem validateWorkflow_total (v : Value) :
    (∃ w, validateWorkflow v = .ok w) ∨ ∃ e, validateWorkflow v = .error e ∧ e ≠ "" := by
  rcases hr : validateWorkflow v with e | w
  · exact Or.inr ⟨e, rfl, validateWorkflow_error_ne hr⟩
  · exact Or.inl ⟨w, rfl⟩

-- ---- Inversion of successful validation ------------------------------

theorem validateTrigger_ok_inv {v : Value} {t : Trigger} (h : validateTrigger v = .ok t) :
    ∃ xs, v = .dict xs ∧ lookupD xs "trigger_type" = some (.str t.trigger_type) ∧
      lookupD xs "config" = some (.dict t.config) ∧ TriggerOk t := by
  unfold validateTrigger at h
  split at h
  case _ xs =>
    split at h
    case _ tt htt =>
      split at h
      case _ => exact Except.noConfusion h
      case _ cfgRaw hcfg =>
        split at h
        case _ e he => exact Except.noConfusion h
        case _ entries hok =>
          obtain rfl : Trigger.mk tt entries = t := Except.ok.inj h
          have hceq : Value.dict entries = cfgRaw := check_config_ok_eq hok
          subst hceq
          exact ⟨xs, rfl, htt, hcfg, hok⟩
        case _ x hok hne => exact Except.noConfusion h
    case _ => exact Except.noConfusion h
    case _ => exact Except.noConfusion h
  case _ => exact Except.noConfusion h

theorem validateAction_ok_inv {v : Value} {a : BaseAction} (h : validateAction v = .ok a) :
    ∃ xs, v = .dict xs ∧ lookupD xs "action_type" = some (.str a.action_type) ∧
      (lookupD xs "params" = some (.dict a.params) ∨
        (lookupD xs "params" = none ∧ a.params = [])) := by
  unfold validateAction at h
  split at h
  case _ xs =>
    split at h
    case _ at' hat =>
      split at h
      case _ hp =>
        obtain rfl : BaseAction.mk at' [] = a := Except.ok.inj h
        exact ⟨xs, rfl, hat, Or.inr ⟨hp, rfl⟩⟩
      case _ ps hp =>
        obtain rfl : BaseAction.mk at' ps = a := Except.ok.inj h
        exact ⟨xs, rfl, hat, Or.inl hp⟩
      case _ => exact Except.noConfusion h
    case _ => exact Except.noConfusion h
    case _ => exact Except.noConfusion h
  case _ => exact Except.noConfusion h

theorem validateWorkflow_ok_inv {v : Value} {w : Workflow} (h : validateWorkflow v = .ok w) :
    ∃ xs, v = .dict xs ∧
      lookupD xs "id" = some (.str w.id) ∧
      lookupD xs "name" = some (.str w.name) ∧
      (∃ tv, lookupD xs "trigger" = some tv ∧ validateTrigger tv = .ok w.trigger) ∧
      (∃ tcs, lookupD xs "target_connector" = some (.str tcs) ∧
        TargetConnectorType.ofStr tcs = some w.target_connector) ∧
      (∃ av, lookupD xs "action" = some av ∧ validateAction av = .ok w.action) ∧
      (lookupD xs "is_enabled" = some (.bool w.is_enabled) ∨
        (lookupD xs "is_enabled" = none ∧ w.is_enabled = true)) := by
  unfold validateWorkflow at h
  split at h
  case _ xs =>
    split at h
    case _ i hid =>
      split at h
      case _ nm hnm =>
        split at h
        case _ tv htv =>
          split at h
          case _ e htr => exact Except.noConfusion h
          case _ trig htr =>
            split at h
            case _ tcs htc =>
              split at h
              case _ tc hofs =>
                split at h
                case _ av hav =>
                  split at h
                  case _ e hact => exact Except.noConfusion h
                  case _ act hact =>
                    split at h
                    case _ hen =>
                      obtain rfl : Workflow.mk i nm trig tc act true = w := Except.ok.inj h
                      exact ⟨xs, rfl, hid, hnm, ⟨tv, htv, htr⟩, ⟨tcs, htc, hofs⟩,
                        ⟨av, hav, hact⟩, Or.inr ⟨hen, rfl⟩⟩
                    case _ b hen =>
                      obtain rfl : Workflow.mk i nm trig tc act b = w := Except.ok.inj h
                      exact ⟨xs, rfl, hid, hnm, ⟨tv, htv, htr⟩, ⟨tcs, htc, hofs⟩,
                        ⟨av, hav, hact⟩, Or.inl hen⟩
                    case _ => exact Except.noConfusion h
                case _ => exact Except.noConfusion h
              case _ => exact Except.noConfusion h
            case _ => exact Except.noConfusion h
            case _ => exact Except.noConfusion h
        case _ => exact Except.noConfusion h
      case _ => exact Except.noConfusion h
      case _ => exact Except.noConfusion h
    case _ => exact Except.noConfusion h
    case _ => exact Except.noConfusion h
  case _ => exact Except.noConfusion h

-- ---- model_dump round-trips through validation -----------------------

theorem ofStr_toStr (c : TargetConnectorType) :
    TargetConnectorType.ofStr c.toStr = some c := by
  cases c <;> rfl

theorem validateTrigger_ok_TriggerOk {v : Value} {t : Trigger}
    (h : validateTrigger v = .ok t) : TriggerOk t :=
  (validateTrigger_ok_inv h).choose_spec.2.2.2

theorem validateWorkflow_ok_TriggerOk {v : Value} {w : Workflow}
    (h : validateWorkflow v = .ok w) : TriggerOk w.trigger := by
  obtain ⟨xs, _, _, _, ⟨tv, _, htr⟩, _⟩ := validateWorkflow_ok_inv h
  exact validateTrigger_ok_TriggerOk htr

theorem validateTrigger_dump (t : Trigger) (h : TriggerOk t) :
    validateTrigger (dumpTrigger t) = .ok t := by
  have h' : check_config_for_trigger_type (some t.trigger_type) (.dict t.config) =
      .ok (.dict t.config) := h
  calc validateTrigger (dumpTrigger t)
      = (match check_config_for_trigger_type (some t.trigger_type) (.dict t.config) with
         | .error e => .error e
         | .ok (.dict entries) => .ok ⟨t.trigger_type, entries⟩
         | .ok _ => .error "config must be a valid dictionary") := rfl
    _ = .ok t := by rw [h']

theorem validateAction_dump (a : BaseAction) : validateAction (dumpAction a) = .ok a := rfl

theorem validateWorkflow_dump (w : Workflow) (h : TriggerOk w.trigger) :
    validateWorkflow (dumpWorkflow w) = .ok w := by
  obtain ⟨i, nm, t, tc, a, en⟩ := w
  have ht : validateTrigger (dumpTrigger t) = .ok t := validateTrigger_dump t h
  cases tc
  · calc validateWorkflow (dumpWorkflow ⟨i, nm, t, .browser, a, en⟩)
        = (match validateTrigger (dumpTrigger t) with
           | .error e => .error e
           | .ok trig => .ok ⟨i, nm, trig, .browser, a, en⟩) := rfl
      _ = .ok ⟨i, nm, t, .browser, a, en⟩ := by rw [ht]
  · calc validateWorkflow (dumpWorkflow ⟨i, nm, t, .gmail, a, en⟩)
        = (match validateTrigger (dumpTrigger t) with
           | .error e => .error e
           | .ok trig => .ok ⟨i, nm, trig, .gmail, a, en⟩) := rfl
      _ = .ok ⟨i, nm, t, .gmail, a, en⟩ := by rw [ht]

theorem validateTrigger_dump_inj {t t' : Trigger}
    (h : validateTrigger (dumpTrigger t) = .ok t') : t' = t := by
  obtain ⟨xs, hxs, htt, hcfg, _⟩ := validateTrigger_ok_inv h
  injection hxs with hxs1
  rw [← hxs1] at htt hcfg
  have h1 : some (Value.str t.trigger_type) = some (Value.str t'.trigger_type) := htt
  have h2 : some (Value.dict t.config) = some (Value.dict t'.config) := hcfg
  injection h1 with h1a
  injection h2 with h2a
  injection h1a with h1b
  injection h2a with h2b
  obtain ⟨tt, cfg⟩ := t
  obtain ⟨tt', cfg'⟩ := t'
  simp only at h1b h2b
  rw [h1b, h2b]

theorem validateAction_dump_inj {a a' : BaseAction}
    (h : validateAction (dumpAction a) = .ok a') : a' = a := by
  have := validateAction_dump a
  rw [this] at h
  exact (Except.ok.inj h).symm

-- ---- Scheduler operation lemmas --------------------------------------

theorem remove_job_fields (st : SysState) (i : String) :
    (remove_job st i).workflows = st.workflows ∧ (remove_job st i).file = st.file ∧
      (remove_job st i).writeMode = st.writeMode := ⟨rfl, rfl, rfl⟩

theorem add_or_update_job_fields (st : SysState) (w : Workflow) :
    (add_or_update_job st w).workflows = st.workflows ∧
      (add_or_update_job st w).file = st.file ∧
      (add_or_update_job st w).writeMode = st.writeMode := by
  unfold add_or_update_job remove_job
  repeat' split
  all_goals exact ⟨rfl, rfl, rfl⟩

-- ---- The from_crontab model ------------------------------------------

theorem crontabFieldsOk_length {l : List String} (h : crontabFieldsOk l = true) :
    l.length = 5 := by
  rcases l with _ | ⟨a, _ | ⟨b, _ | ⟨c, _ | ⟨d, _ | ⟨e, _ | ⟨f, rest⟩⟩⟩⟩⟩⟩
  · exact Bool.noConfusion h
  · exact Bool.noConfusion h
  · exact Bool.noConfusion h
  · exact Bool.noConfusion h
  · exact Bool.noConfusion h
  · rfl
  · exact Bool.noConfusion h

theorem fromCrontabOk_length {s : String} (h : fromCrontabOk s = true) :
    (pySplit s).length = 5 :=
  crontabFieldsOk_length h

-- Behaviour of the from_crontab model on representative expressions: the
-- classic forms are accepted; the 6-field form, out-of-range bounds,
-- unrecognized pieces, unknown names and zero steps are rejected, just as
-- the library raises ValueError on them.
theorem fromCrontabOk_examples :
    fromCrontabOk "0 8 * * *" = true ∧
    fromCrontabOk "*/15 0 1,15 jan-mar mon-fri" = true ∧
    fromCrontabOk "0 9 last * *" = true ∧
    fromCrontabOk "61 0 * * *" = false ∧
    fromCrontabOk "a b c d e" = false ∧
    fromCrontabOk "0 8 * * mon-xyz" = false ∧
    fromCrontabOk "*/0 * * * *" = false ∧
    fromCrontabOk "* * * * * *" = false := by
  decide

theorem isScheduledCron_parts {w : Workflow} (hs : isScheduledCron w = true) :
    w.is_enabled = true ∧ w.trigger.trigger_type = "cron" := by
  unfold isScheduledCron at hs
  rw [Bool.and_eq_true] at hs
  exact ⟨hs.1, beq_iff_eq.mp hs.2⟩

theorem add_or_update_job_sched {st : SysState} {w : Workflow}
    (hg : goodCron w) (hs : isScheduledCron w = true) :
    add_or_update_job st w = { st with jobs := dictInsert st.jobs w.id w } := by
  obtain ⟨s, hl, hfc⟩ := hg hs
  obtain ⟨hen, hct⟩ := isScheduledCron_parts hs
  have hlen : (pySplit s).length = 5 := fromCrontabOk_length hfc
  have hdata : s.data.isEmpty = false := by
    cases hd : s.data.isEmpty
    · rfl
    · rw [List.isEmpty_iff] at hd
      rw [show pySplit s = splitWsAux s.data [] from rfl, hd] at hlen
      simp [splitWsAux] at hlen
  unfold add_or_update_job
  rw [hen, hl]
  simp only [Bool.not_true, Bool.false_eq_true, if_false, hct, if_pos rfl, pyFalsy, hdata,
    hfc, if_true]

theorem add_or_update_job_unsched {st : SysState} {w : Workflow}
    (hs : isScheduledCron w = false) :
    add_or_update_job st w = remove_job st w.id := by
  unfold isScheduledCron at hs
  by_cases hen : w.is_enabled = true
  · rw [hen] at hs
    simp only [Bool.true_and] at hs
    have hct : ¬(w.trigger.trigger_type = "cron") := by
      intro hh
      rw [hh] at hs
      simp at hs
    unfold add_or_update_job
    rw [hen]
    simp only [Bool.not_true, Bool.false_eq_true, if_false]
    rw [if_neg hct]
  · have hen' : w.is_enabled = false := by
      cases hb : w.is_enabled
      · rfl
      · exact absurd hb hen
    unfold add_or_update_job
    rw [hen']
    simp only [Bool.not_false, if_true]

-- ---- Persistence operation lemmas ------------------------------------

theorem save_workflows_parts (st : SysState) :
    (save_workflows st).workflows = st.workflows ∧ (save_workflows st).jobs = st.jobs ∧
      (save_workflows st).writeMode = st.writeMode := by
  unfold save_workflows
  split
  · exact ⟨rfl, rfl, rfl⟩
  · exact ⟨rfl, rfl, rfl⟩
  · exact ⟨rfl, rfl, rfl⟩

theorem save_workflows_failBefore {st : SysState} (h : st.writeMode = WriteMode.failBeforeOpen) :
    save_workflows st = st := by
  unfold save_workflows
  rw [h]

theorem save_workflows_failDuring {st : SysState} (h : st.writeMode = WriteMode.failDuringWrite) :
    save_workflows st = { st with file := .corrupt } := by
  unfold save_workflows
  rw [h]

theorem save_workflows_ok {st : SysState} (h : st.writeMode = WriteMode.ok) :
    save_workflows st =
      { st with file := .json (.list (st.workflows.map (fun p => dumpWorkflow p.2))) } := by
  unfold save_workflows
  rw [h]

-- ==================================================================
-- Claim theorems
-- ==================================================================

/-- Claim C4: validation of a workflow document is pure and total: for every
input value it either produces a fully-typed `Workflow` or returns a
descriptive (nonempty) error value; no exception escapes to the caller
unhandled (python exceptions during validation are modelled as the error
result, since every call site catches them). -/
theorem validation_is_pure_and_total (v : Value) :
    (∃ w : Workflow, validateWorkflow v = .ok w) ∨
      ∃ e, validateWorkflow v = .error e ∧ e ≠ "" :=
  validateWorkflow_total v

/-- Claim C5: a cron trigger whose config lacks `cron_expression` is rejected;
a `cron_expression` (or a semantic_condition `check_interval_cron`) is
accepted exactly when its whitespace-split token count is 5 or 6, so 4-field
and 7-field strings are rejected and 5-field and 6-field strings accepted. -/
theorem cron_field_count_validation :
    (∀ cfg : List (String × Value), lookupD cfg "cron_expression" = none →
      ∃ e, check_config_for_trigger_type (some "cron") (.dict cfg) = .error e ∧ e ≠ "") ∧
    (∀ (cfg : List (String × Value)) (s : String),
      lookupD cfg "cron_expression" = some (.str s) →
      (check_config_for_trigger_type (some "cron") (.dict cfg) = .ok (.dict cfg) ↔
        ((pySplit s).length = 5 ∨ (pySplit s).length = 6))) ∧
    (∀ d s : String, pySplit d ≠ [] →
      (check_config_for_trigger_type (some "semantic_condition")
          (.dict [("condition_description", .str d), ("check_interval_cron", .str s)]) =
        .ok (.dict [("condition_description", .str d), ("check_interval_cron", .str s)]) ↔
        ((pySplit s).length = 5 ∨ (pySplit s).length = 6))) := by
  refine ⟨?_, ?_, ?_⟩
  · intro cfg h
    have hred : check_config_for_trigger_type (some "cron") (.dict cfg) =
        checkCron (.dict cfg) := rfl
    have hpc : pyContains (.dict cfg) "cron_expression" = .ok false := by
      have h0 : pyContains (.dict cfg) "cron_expression" =
          .ok (lookupD cfg "cron_expression").isSome := rfl
      rw [h0, h]
      rfl
    have e1 : checkCron (.dict cfg) =
        .error "Cron trigger config must contain cron_expression" := by
      have h0 : checkCron (.dict cfg) =
          (match pyContains (.dict cfg) "cron_expression" with
           | .error e => .error e
           | .ok has =>
             if !has then .error "Cron trigger config must contain cron_expression"
             else checkCronIndex (.dict cfg)) := rfl
      rw [h0, hpc]
      rfl
    exact ⟨_, hred.trans e1, by decide⟩
  · intro cfg s h
    have hpc : pyContains (.dict cfg) "cron_expression" = .ok true := by
      have h0 : pyContains (.dict cfg) "cron_expression" =
          .ok (lookupD cfg "cron_expression").isSome := rfl
      rw [h0, h]
      rfl
    have hpi : pyIndex (.dict cfg) "cron_expression" = .ok (.str s) := by
      have h0 : pyIndex (.dict cfg) "cron_expression" =
          (match lookupD cfg "cron_expression" with
           | some x => .ok x
           | none => .error ("KeyError: " ++ "cron_expression")) := rfl
      rw [h0, h]
    have e1 : check_config_for_trigger_type (some "cron") (.dict cfg) =
        checkCronIndex (.dict cfg) := by
      have h0 : check_config_for_trigger_type (some "cron") (.dict cfg) =
          (match pyContains (.dict cfg) "cron_expression" with
           | .error e => .error e
           | .ok has =>
             if !has then .error "Cron trigger config must contain cron_expression"
             else checkCronIndex (.dict cfg)) := rfl
      rw [h0, hpc]
      rfl
    have e2 : checkCronIndex (.dict cfg) = checkCronLength (.dict cfg) (.str s) := by
      have h0 : checkCronIndex (.dict cfg) =
          (match pyIndex (.dict cfg) "cron_expression" with
           | .error e => .error e
           | .ok expr => checkCronLength (.dict cfg) expr) := rfl
      rw [h0, hpi]
    rw [e1, e2]
    unfold checkCronLength
    have hps : pyStr (.str s) = s := rfl
    cases hn : cronPartsOk (.str s)
    · unfold cronPartsOk at hn
      rw [hps] at hn
      constructor
      · intro hcontr
        exact Except.noConfusion hcontr
      · intro hor
        have htrue : (decide (5 ≤ (pySplit s).length) &&
            decide ((pySplit s).length ≤ 6)) = true := by
          rcases hor with h5 | h5 <;> simp [h5]
        rw [htrue] at hn
        exact Bool.noConfusion hn
    · unfold cronPartsOk at hn
      rw [hps, Bool.and_eq_true, decide_eq_true_eq, decide_eq_true_eq] at hn
      exact Iff.intro (fun _ => by omega) (fun _ => rfl)
  · intro d s hd
    have hdne : (pySplit d).isEmpty = false := by
      cases hh : (pySplit d).isEmpty
      · rfl
      · exact absurd (List.isEmpty_iff.mp hh) hd
    have e1 : check_config_for_trigger_type (some "semantic_condition")
        (.dict [("condition_description", .str d), ("check_interval_cron", .str s)]) =
        checkConditionStr
          (.dict [("condition_description", .str d), ("check_interval_cron", .str s)]) d := rfl
    have e2 : checkConditionStr
        (.dict [("condition_description", .str d), ("check_interval_cron", .str s)]) d =
        checkInterval
          (.dict [("condition_description", .str d), ("check_interval_cron", .str s)]) := by
      unfold checkConditionStr
      rw [hdne]
      rfl
    have e3 : checkInterval
        (.dict [("condition_description", .str d), ("check_interval_cron", .str s)]) =
        checkIntervalLength
          (.dict [("condition_description", .str d), ("check_interval_cron", .str s)])
          (.str s) := rfl
    rw [e1, e2, e3]
    unfold checkIntervalLength
    have hps : pyStr (.str s) = s := rfl
    cases hn : cronPartsOk (.str s)
    · unfold cronPartsOk at hn
      rw [hps] at hn
      constructor
      · intro hcontr
        exact Except.noConfusion hcontr
      · intro hor
        have htrue : (decide (5 ≤ (pySplit s).length) &&
            decide ((pySplit s).length ≤ 6)) = true := by
          rcases hor with h5 | h5 <;> simp [h5]
        rw [htrue] at hn
        exact Bool.noConfusion hn
    · unfold cronPartsOk at hn
      rw [hps, Bool.and_eq_true, decide_eq_true_eq, decide_eq_true_eq] at hn
      exact Iff.intro (fun _ => by omega) (fun _ => rfl)

/-- Witness for C5 at concrete inputs: a 5-field expression is accepted and a
missing `cron_expression` key is rejected. -/
theorem cron_field_count_validation_witness :
    check_config_for_trigger_type (some "cron")
        (.dict [("cron_expression", .str "0 8 * * *")]) =
      .ok (.dict [("cron_expression", .str "0 8 * * *")]) ∧
    ∃ e, check_config_for_trigger_type (some "cron") (.dict [("other", .null)]) =
      .error e ∧ e ≠ "" :=
  ⟨(cron_field_count_validation.2.1 [("cron_expression", .str "0 8 * * *")]
      "0 8 * * *" rfl).mpr (Or.inl (by decide)),
   cron_field_count_validation.1 [("other", .null)] rfl⟩

-- ---- Counting and append forms of dict insertion ---------------------

theorem dictInsert_of_absent {α : Type} {m : List (String × α)} {k : String} (v : α)
    (h : lookupD m k = none) : dictInsert m k v = m ++ [(k, v)] := by
  induction m with
  | nil => rfl
  | cons p rest ih =>
    obtain ⟨k0, v0⟩ := p
    by_cases hk : k0 = k
    · rw [hk] at h
      simp [lookupD] at h
    · simp only [lookupD, hk, if_false] at h
      simp [dictInsert, hk, ih h]

theorem countKey_of_absent {m : List (String × Workflow)} {k : String}
    (h : lookupD m k = none) : countKey m k = 0 := by
  induction m with
  | nil => rfl
  | cons p rest ih =>
    obtain ⟨k0, v0⟩ := p
    by_cases hk : k0 = k
    · rw [hk] at h
      simp [lookupD] at h
    · simp only [lookupD, hk, if_false] at h
      have hb : ((k0, v0).1 == k) = false := by simp [hk]
      unfold countKey
      rw [List.filter_cons, hb]
      simp only [Bool.false_eq_true, if_false]
      exact ih h

theorem countKey_append_single (m : List (String × Workflow)) (k : String) (w : Workflow) :
    countKey (m ++ [(k, w)]) k = countKey m k + 1 := by
  unfold countKey
  rw [List.filter_append]
  simp [List.filter]

/-- Claim C10: whenever add_workflow or update_workflow returns None because
validation of the (merged) document failed, the whole system state, the
in-memory collection and persisted file included, is exactly as before the
call: nothing is stored and no save occurs. -/
theorem validation_failure_is_atomic :
    (∀ (st : SysState) (doc : List (String × Value)) (g e : String),
      validateWorkflow (.dict (setdefaultId doc g)) = .error e →
      add_workflow st doc g = (none, st)) ∧
    (∀ (st : SysState) (i : String) (u : List (String × Value)) (ex : Workflow) (e : String),
      lookupD st.workflows i = some ex →
      validateWorkflow (.dict (mergedDoc ex u i)) = .error e →
      update_workflow st i u = (none, st)) := by
  constructor
  · intro st doc g e h
    simp only [add_workflow]
    rw [h]
  · intro st i u ex e hex h
    have hred : update_workflow st i u =
        (match validateWorkflow (.dict (mergedDoc ex u i)) with
         | .error _ => ((none : Option Workflow), st)
         | .ok w => (some w, add_or_update_job (save_workflows
             { st with workflows := dictInsert st.workflows i w }) w)) := by
      simp only [update_workflow]
      rw [hex]
    rw [hred, h]

/-- Witness for C10: adding a malformed document to a fresh manager returns
None and leaves the state untouched. -/
theorem validation_failure_is_atomic_witness :
    add_workflow exFreshState exBadDoc "uuid-w" = (none, exFreshState) :=
  validation_failure_is_atomic.1 exFreshState exBadDoc "uuid-w"
    "Cron trigger config must contain cron_expression" (by rfl)

/-- Claim C9: adding twice with the same explicit id succeeds the first time,
returns None the second time, and leaves exactly one record with that id. -/
theorem duplicate_add_second_rejected :
    ∀ (st : SysState) (doc : List (String × Value)) (g g' : String) (w : Workflow)
      (st₁ : SysState),
      (lookupD doc "id").isSome = true →
      add_workflow st doc g = (some w, st₁) →
      add_workflow st₁ doc g' = (none, st₁) ∧ countKey st₁.workflows w.id = 1 := by
  intro st doc g g' w st₁ hid hadd
  have hsd : ∀ gg : String, setdefaultId doc gg = doc := by
    intro gg
    unfold setdefaultId
    rw [if_pos hid]
  simp only [add_workflow, hsd] at hadd
  split at hadd
  case _ e hv => exact absurd hadd (by simp)
  case _ w0 hv =>
    split at hadd
    case _ hdup => exact absurd hadd (by simp)
    case _ hdup =>
      rw [Prod.mk.injEq] at hadd
      obtain ⟨hw, hst⟩ := hadd
      injection hw with hw'
      rw [hw'] at hv hdup hst
      have hnone : lookupD st.workflows w.id = none := by
        cases hl : lookupD st.workflows w.id
        · rfl
        · rw [hl] at hdup
          simp at hdup
      have hwfs : st₁.workflows = dictInsert st.workflows w.id w := by
        rw [← hst]
        rw [(add_or_update_job_fields _ _).1, (save_workflows_parts _).1]
      constructor
      · have hfound : (lookupD st₁.workflows w.id).isSome = true := by
          rw [hwfs, lookupD_dictInsert_self]
          rfl
        have hred2 : add_workflow st₁ doc g' =
            (if (lookupD st₁.workflows w.id).isSome = true then ((none : Option Workflow), st₁)
             else (some w, add_or_update_job (save_workflows
               { st₁ with workflows := dictInsert st₁.workflows w.id w }) w)) := by
          simp only [add_workflow, hsd]
          rw [hv]
        rw [hred2, if_pos hfound]
      · rw [hwfs, dictInsert_of_absent w hnone, countKey_append_single,
          countKey_of_absent hnone]

/-- Witness for C9 at a concrete input: the second identical add is rejected
and one record with the id remains. -/
theorem duplicate_add_second_rejected_witness :
    add_workflow (add_workflow exFreshState exCronDoc "g1").2 exCronDoc "g2" =
      (none, (add_workflow exFreshState exCronDoc "g1").2) ∧
    countKey (add_workflow exFreshState exCronDoc "g1").2.workflows "wf-daily" = 1 := by
  have h := duplicate_add_second_rejected exFreshState exCronDoc "g1" "g2"
    exCronWorkflow (add_workflow exFreshState exCronDoc "g1").2 (by rfl) (by rfl)
  exact ⟨h.1, h.2⟩

/-- Counterexample to claim C3 as stated: on a state whose durable writes
fail, add_workflow still reports success (it returns the stored workflow),
so the persistence failure is not surfaced to the caller, even though the
persisted file provably did not change while the collection did. -/
theorem write_failure_not_surfaced_counterexample :
    exBrokenDiskState.writeMode ≠ WriteMode.ok ∧
    (add_workflow exBrokenDiskState exCronDoc "g").1 = some exCronWorkflow ∧
    (add_workflow exBrokenDiskState exCronDoc "g").2.file = exBrokenDiskState.file ∧
    (add_workflow exBrokenDiskState exCronDoc "g").2.workflows ≠
      exBrokenDiskState.workflows := by
  refine ⟨by decide, rfl, rfl, ?_⟩
  decide

/-- Claim C3 amended: if the durable write fails during add_workflow,
update_workflow, or delete_workflow, the failure is logged and swallowed, so
the operation still reports success, and the in-memory collection holds the
completed mutation uncorrupted as the starting point of the next save
attempt.  The persisted file, however, is not restored: it keeps its
previous content only when the failure precedes `open(path, 'w')`; when the
write itself fails the open has already truncated the file, which is left
holding an undecodable partial dump. -/
theorem write_failure_swallowed :
    ∀ st : SysState, st.writeMode ≠ WriteMode.ok →
      (∀ (doc : List (String × Value)) (g : String) (w : Workflow) (st' : SysState),
        add_workflow st doc g = (some w, st') →
        st'.workflows = dictInsert st.workflows w.id w ∧
        st'.file = (if st.writeMode = WriteMode.failBeforeOpen then st.file
                    else FileContent.corrupt)) ∧
      (∀ (i : String) (u : List (String × Value)) (w : Workflow) (st' : SysState),
        update_workflow st i u = (some w, st') →
        st'.workflows = dictInsert st.workflows i w ∧
        st'.file = (if st.writeMode = WriteMode.failBeforeOpen then st.file
                    else FileContent.corrupt)) ∧
      (∀ (i : String) (st' : SysState),
        delete_workflow st i = (true, st') →
        st'.workflows = st.workflows.filter (fun p => p.1 != i) ∧
        st'.file = (if st.writeMode = WriteMode.failBeforeOpen then st.file
                    else FileContent.corrupt)) := by
  intro st hwf
  refine ⟨?_, ?_, ?_⟩
  · intro doc g w st' hadd
    simp only [add_workflow] at hadd
    split at hadd
    case _ => exact absurd hadd (by simp)
    case _ w0 hv =>
      split at hadd
      case _ => exact absurd hadd (by simp)
      case _ hdup =>
        rw [Prod.mk.injEq] at hadd
        obtain ⟨hw, hst⟩ := hadd
        injection hw with hw'
        rw [hw'] at hst
        set st1 : SysState := { st with workflows := dictInsert st.workflows w.id w } with hst1
        have hfile : st'.file = (save_workflows st1).file := by
          rw [← hst]
          exact (add_or_update_job_fields _ _).2.1
        refine ⟨?_, ?_⟩
        · rw [← hst, (add_or_update_job_fields _ _).1, (save_workflows_parts _).1]
        · rcases hm : st.writeMode with _ | _ | _
          · exact absurd hm hwf
          · rw [if_pos rfl, hfile, save_workflows_failBefore (show st1.writeMode = _ from hm)]
          · rw [if_neg (by decide), hfile,
              save_workflows_failDuring (show st1.writeMode = _ from hm)]
  · intro i u w st' hupd
    simp only [update_workflow] at hupd
    split at hupd
    case _ => exact absurd hupd (by simp)
    case _ ex hex =>
      split at hupd
      case _ => exact absurd hupd (by simp)
      case _ w0 hv =>
        rw [Prod.mk.injEq] at hupd
        obtain ⟨hw, hst⟩ := hupd
        injection hw with hw'
        rw [hw'] at hst
        set st1 : SysState := { st with workflows := dictInsert st.workflows i w } with hst1
        have hfile : st'.file = (save_workflows st1).file := by
          rw [← hst]
          exact (add_or_update_job_fields _ _).2.1
        refine ⟨?_, ?_⟩
        · rw [← hst, (add_or_update_job_fields _ _).1, (save_workflows_parts _).1]
        · rcases hm : st.writeMode with _ | _ | _
          · exact absurd hm hwf
          · rw [if_pos rfl, hfile, save_workflows_failBefore (show st1.writeMode = _ from hm)]
          · rw [if_neg (by decide), hfile,
              save_workflows_failDuring (show st1.writeMode = _ from hm)]
  · intro i st' hdel
    unfold delete_workflow at hdel
    split at hdel
    case _ hfound =>
      rw [Prod.mk.injEq] at hdel
      obtain ⟨_, hst⟩ := hdel
      set st1 : SysState := { st with workflows := st.workflows.filter (fun p => p.1 != i) }
        with hst1
      have hfile : st'.file = (save_workflows st1).file := by
        rw [← hst]
        exact (remove_job_fields _ _).2.1
      refine ⟨?_, ?_⟩
      · rw [← hst, (remove_job_fields _ _).1, (save_workflows_parts _).1]
      · rcases hm : st.writeMode with _ | _ | _
        · exact absurd hm hwf
        · rw [if_pos rfl, hfile, save_workflows_failBefore (show st1.writeMode = _ from hm)]
        · rw [if_neg (by decide), hfile,
            save_workflows_failDuring (show st1.writeMode = _ from hm)]
    case _ =>
      rw [Prod.mk.injEq] at hdel
      exact absurd hdel.1 (by simp)

/-- Witness for the amended C3: an add on a disk failing before the open
reports success, stores the workflow and keeps the old file content; the
same add on a disk failing during the write also reports success and stores
the workflow, but leaves the file truncated. -/
theorem write_failure_swallowed_witness :
    ((add_workflow exBrokenDiskState exCronDoc "g").2.workflows =
       dictInsert exBrokenDiskState.workflows "wf-daily" exCronWorkflow ∧
     (add_workflow exBrokenDiskState exCronDoc "g").2.file = exBrokenDiskState.file) ∧
    ((add_workflow exTruncDiskState exCronDoc "g").2.workflows =
       dictInsert exTruncDiskState.workflows "wf-daily" exCronWorkflow ∧
     (add_workflow exTruncDiskState exCronDoc "g").2.file = FileContent.corrupt) :=
  ⟨(write_failure_swallowed exBrokenDiskState (by decide)).1 exCronDoc "g" exCronWorkflow
      (add_workflow exBrokenDiskState exCronDoc "g").2 rfl,
   (write_failure_swallowed exTruncDiskState (by decide)).1 exCronDoc "g" exCronWorkflow
      (add_workflow exTruncDiskState exCronDoc "g").2 rfl⟩

-- ---- Skipping a bad record during load -------------------------------

theorem loadList_skip {es : List (String × Value)} {e : String}
    (hv : validateWorkflow (.dict es) = .error e) :
    ∀ (pre post : List Value) (acc : List (String × Workflow)),
      loadList (pre ++ .dict es :: post) acc = loadList (pre ++ post) acc := by
  intro pre
  induction pre with
  | nil =>
    intro post acc
    simp only [List.nil_append, loadList]
    rw [hv]
  | cons p pre ih =>
    intro post acc
    rcases p with _ | _ | _ | _ | _ | entries
    case dict =>
      simp only [List.cons_append, loadList]
      rcases hp : validateWorkflow (.dict entries) with e' | w
      · exact ih post acc
      · exact ih post (dictInsert acc w.id w)
    all_goals rfl

theorem loadList_abort {d : Value} (hd : ∀ es, d ≠ Value.dict es) :
    ∀ (pre post : List Value) (acc : List (String × Workflow)),
      loadList (pre ++ d :: post) acc = loadList pre acc := by
  intro pre
  induction pre with
  | nil =>
    intro post acc
    rcases d with _ | _ | _ | _ | _ | entries
    case dict => exact absurd rfl (hd entries)
    all_goals rfl
  | cons p pre ih =>
    intro post acc
    rcases p with _ | _ | _ | _ | _ | entries
    case dict =>
      simp only [List.cons_append, loadList]
      rcases hp : validateWorkflow (.dict entries) with e' | w
      · exact ih post acc
      · exact ih post (dictInsert acc w.id w)
    all_goals rfl

/-- Counterexample to claim C8 as stated: a persisted file holding a
non-dict record followed by a perfectly valid record does not load the
valid record.  `Workflow.model_validate` raises on the string record, the
per-record handler's `workflow_data.get('id', 'Unknown ID')` then raises
`AttributeError` (a str has no `get`), and the outer `except Exception`
abandons the loop - so the malformed record is not skipped: every record
after it is lost, while the records before it stay loaded. -/
theorem load_aborts_on_nondict_record_counterexample :
    load_workflows (.json (.list [.dict exCronDoc])) = [("wf-daily", exCronWorkflow)] ∧
    load_workflows (.json (.list [.str "junk", .dict exCronDoc])) = [] ∧
    load_workflows (.json (.list [.dict exCronDoc, .str "junk", .dict exSixFieldDoc])) =
      [("wf-daily", exCronWorkflow)] :=
  ⟨rfl, rfl, rfl⟩

/-- Claim C8 amended: load survives file-level failures - a missing file, an
undecodable file, and JSON that is not a list each yield the empty
collection without failing - and a dict record failing validation is
skipped while the rest of the file loads exactly as if that record were
absent.  A record that is not a dict, however, is not skipped: validation
raises, the logging line of the per-record handler itself raises
`AttributeError` on `workflow_data.get`, and the outer handler abandons the
loop, so the records before it stay loaded and every record after it is
lost. -/
theorem load_partial_failure_tolerance :
    load_workflows .missing = [] ∧
    load_workflows .corrupt = [] ∧
    (∀ v : Value, (∀ items, v ≠ .list items) → load_workflows (.json v) = []) ∧
    (∀ (pre post : List Value) (es : List (String × Value)) (e : String),
      validateWorkflow (.dict es) = .error e →
      load_workflows (.json (.list (pre ++ .dict es :: post))) =
        load_workflows (.json (.list (pre ++ post)))) ∧
    (∀ (pre post : List Value) (d : Value), (∀ es, d ≠ Value.dict es) →
      load_workflows (.json (.list (pre ++ d :: post))) = loadList pre []) := by
  refine ⟨rfl, rfl, ?_, ?_, ?_⟩
  · intro v hv
    rcases v with _ | _ | _ | _ | items | _
    case list => exact absurd rfl (hv items)
    all_goals rfl
  · intro pre post es e hv
    simp only [load_workflows]
    exact loadList_skip hv pre post []
  · intro pre post d hd
    simp only [load_workflows]
    exact loadList_abort hd pre post []

/-- Witness for the amended C8: the skip branch at a concrete malformed dict
record, the abort branch at a concrete non-dict record, and the non-list
branch at a concrete non-list JSON value. -/
theorem load_partial_failure_tolerance_witness :
    load_workflows (.json (.list [exBadRecord, .dict exCronDoc])) =
      load_workflows (.json (.list [.dict exCronDoc])) ∧
    load_workflows (.json (.list [.dict exCronDoc, .str "junk", .dict exCronDoc])) =
      loadList [.dict exCronDoc] [] ∧
    load_workflows (.json (.str "not-a-list")) = [] :=
  ⟨load_partial_failure_tolerance.2.2.2.1 [] [.dict exCronDoc] exBadDoc
      "Cron trigger config must contain cron_expression" (by rfl),
   load_partial_failure_tolerance.2.2.2.2 [.dict exCronDoc] [.dict exCronDoc] (.str "junk")
      (fun es h => Value.noConfusion h),
   load_partial_failure_tolerance.2.2.1 (.str "not-a-list")
      (fun items h => Value.noConfusion h)⟩

-- ---- Lookups in the merged update document ---------------------------

theorem mergedDoc_lookup_id (ex : Workflow) (u : List (String × Value)) (i : String) :
    lookupD (mergedDoc ex u i) "id" = some (.str i) := by
  unfold mergedDoc
  exact lookupD_dictInsert_self _ _ _

theorem mergedDoc_lookup_unsupplied (ex : Workflow) (u : List (String × Value)) (i k : String)
    (hk : k ≠ "id") (hu : lookupD u k = none) :
    lookupD (mergedDoc ex u i) k = lookupD (dumpEntries ex) k := by
  unfold mergedDoc
  rw [lookupD_dictInsert_ne _ _ _ _ hk, mergeDoc_lookup_not_supplied _ _ _ hu]

/-- Claim C6: update_workflow merges only the supplied top-level fields onto
the existing document: every unsupplied field keeps its prior value and the
resulting id always equals the original id, whatever id the update data
carries. -/
theorem update_preserves_unsupplied_fields :
    ∀ (st : SysState) (i : String) (u : List (String × Value)) (ex w : Workflow)
      (st' : SysState),
      lookupD st.workflows i = some ex →
      update_workflow st i u = (some w, st') →
      w.id = i ∧
      (lookupD u "name" = none → w.name = ex.name) ∧
      (lookupD u "trigger" = none → w.trigger = ex.trigger) ∧
      (lookupD u "target_connector" = none → w.target_connector = ex.target_connector) ∧
      (lookupD u "action" = none → w.action = ex.action) ∧
      (lookupD u "is_enabled" = none → w.is_enabled = ex.is_enabled) := by
  intro st i u ex w st' hex hupd
  simp only [update_workflow] at hupd
  split at hupd
  case _ heq =>
    rw [hex] at heq
    exact Option.noConfusion heq
  case _ ex0 heq =>
    rw [hex] at heq
    injection heq with heq'
    subst heq'
    split at hupd
    case _ => exact absurd hupd (by simp)
    case _ w0 hv =>
      rw [Prod.mk.injEq] at hupd
      obtain ⟨hw, _⟩ := hupd
      injection hw with hw'
      rw [hw'] at hv
      obtain ⟨xs, hxs, hid, hnm, ⟨tv, htv, htr⟩, ⟨tcs, htc, hofs⟩, ⟨av, hav, hact⟩, hen⟩ :=
        validateWorkflow_ok_inv hv
      injection hxs with hxs'
      subst hxs'
      refine ⟨?_, ?_, ?_, ?_, ?_, ?_⟩
      · rw [mergedDoc_lookup_id] at hid
        injection hid with h1
        injection h1 with h2
        exact h2.symm
      · intro hu
        have hm : lookupD (mergedDoc ex u i) "name" = some (.str ex.name) := by
          rw [mergedDoc_lookup_unsupplied ex u i "name" (by decide) hu]
          rfl
        rw [hm] at hnm
        injection hnm with h1
        injection h1 with h2
        exact h2.symm
      · intro hu
        have hm : lookupD (mergedDoc ex u i) "trigger" = some (dumpTrigger ex.trigger) := by
          rw [mergedDoc_lookup_unsupplied ex u i "trigger" (by decide) hu]
          rfl
        rw [hm] at htv
        injection htv with h1
        rw [← h1] at htr
        exact validateTrigger_dump_inj htr
      · intro hu
        have hm : lookupD (mergedDoc ex u i) "target_connector" =
            some (.str ex.target_connector.toStr) := by
          rw [mergedDoc_lookup_unsupplied ex u i "target_connector" (by decide) hu]
          rfl
        rw [hm] at htc
        injection htc with h1
        injection h1 with h2
        rw [← h2, ofStr_toStr] at hofs
        injection hofs with h3
        exact h3.symm
      · intro hu
        have hm : lookupD (mergedDoc ex u i) "action" = some (dumpAction ex.action) := by
          rw [mergedDoc_lookup_unsupplied ex u i "action" (by decide) hu]
          rfl
        rw [hm] at hav
        injection hav with h1
        rw [← h1] at hact
        exact validateAction_dump_inj hact
      · intro hu
        have hm : lookupD (mergedDoc ex u i) "is_enabled" =
            some (.bool ex.is_enabled) := by
          rw [mergedDoc_lookup_unsupplied ex u i "is_enabled" (by decide) hu]
          rfl
        rcases hen with hen | ⟨hen, _⟩
        · rw [hm] at hen
          injection hen with h1
          injection h1 with h2
          exact h2.symm
        · rw [hm] at hen
          exact Option.noConfusion hen

/-- Witness for C6: renaming a workflow changes only its name; id, trigger,
connector, action and enabled flag keep their prior values. -/
theorem update_preserves_unsupplied_fields_witness :
    (update_workflow (add_workflow exFreshState exCronDoc "g").2 "wf-daily"
        [("name", .str "Renamed")]).1 = some { exCronWorkflow with name := "Renamed" } ∧
    { exCronWorkflow with name := "Renamed" }.id = "wf-daily" ∧
    { exCronWorkflow with name := "Renamed" }.trigger = exCronWorkflow.trigger ∧
    { exCronWorkflow with name := "Renamed" }.is_enabled = exCronWorkflow.is_enabled := by
  have hall := update_preserves_unsupplied_fields
    (add_workflow exFreshState exCronDoc "g").2 "wf-daily" [("name", .str "Renamed")]
    exCronWorkflow { exCronWorkflow with name := "Renamed" }
    (update_workflow (add_workflow exFreshState exCronDoc "g").2 "wf-daily"
      [("name", .str "Renamed")]).2 (by rfl) (by rfl)
  exact ⟨by rfl, hall.1, hall.2.2.1 rfl, hall.2.2.2.2.2 rfl⟩

-- ---- Loading appended records ----------------------------------------

theorem loadList_append_ok {d : Value} {w : Workflow} (hv : validateWorkflow d = .ok w) :
    ∀ (xs : List Value) (acc : List (String × Workflow)),
      (∀ x ∈ xs, ∃ es, x = Value.dict es) →
      loadList (xs ++ [d]) acc = dictInsert (loadList xs acc) w.id w := by
  obtain ⟨des, hdes, -⟩ := validateWorkflow_ok_inv hv
  subst hdes
  intro xs
  induction xs with
  | nil =>
    intro acc _
    simp only [List.nil_append, loadList]
    rw [hv]
  | cons p rest ih =>
    intro acc hxs
    obtain ⟨pes, hpes⟩ := hxs p (List.mem_cons_self _ _)
    subst hpes
    have hrest : ∀ x ∈ rest, ∃ es, x = Value.dict es :=
      fun x hx => hxs x (List.mem_cons_of_mem _ hx)
    simp only [List.cons_append, loadList]
    rcases hp : validateWorkflow (.dict pes) with e' | w'
    · exact ih acc hrest
    · exact ih (dictInsert acc w'.id w') hrest

theorem initJobs_skeleton (ws : List (String × Workflow)) (st : SysState) :
    (initJobs st ws).workflows = st.workflows ∧ (initJobs st ws).file = st.file ∧
      (initJobs st ws).writeMode = st.writeMode := by
  induction ws generalizing st with
  | nil => exact ⟨rfl, rfl, rfl⟩
  | cons p rest ih =>
    simp only [initJobs]
    by_cases hs : isScheduledCron p.2 = true
    · rw [if_pos hs]
      have h1 := add_or_update_job_fields st p.2
      obtain ⟨a, b, c⟩ := ih (add_or_update_job st p.2)
      exact ⟨a.trans h1.1, b.trans h1.2.1, c.trans h1.2.2⟩
    · rw [if_neg hs]
      exact ih st

theorem mkManager_workflows (f : FileContent) (m : WriteMode) :
    (mkManager f m).workflows = load_workflows f := by
  simp only [mkManager]
  exact (initJobs_skeleton _ _).1

/-- Claim C7: round-trip persistence fidelity: a workflow accepted by
add_workflow while the durable write succeeds is found, field-for-field
equal, in the collection of a fresh manager constructed over the same
persisted file. -/
theorem add_roundtrip_through_fresh_load :
    ∀ (st : SysState) (doc : List (String × Value)) (g : String) (w : Workflow)
      (st' : SysState),
      st.writeMode = WriteMode.ok →
      add_workflow st doc g = (some w, st') →
      lookupD (mkManager st'.file WriteMode.ok).workflows w.id = some w := by
  intro st doc g w st' hwf hadd
  simp only [add_workflow] at hadd
  split at hadd
  case _ => exact absurd hadd (by simp)
  case _ w0 hv =>
    split at hadd
    case _ => exact absurd hadd (by simp)
    case _ hdup =>
      rw [Prod.mk.injEq] at hadd
      obtain ⟨hw, hst⟩ := hadd
      injection hw with hw'
      rw [hw'] at hv hdup hst
      have hnone : lookupD st.workflows w.id = none := by
        cases hl : lookupD st.workflows w.id
        · rfl
        · rw [hl] at hdup
          simp at hdup
      have htrig := validateWorkflow_ok_TriggerOk hv
      have hfile : st'.file =
          .json (.list ((st.workflows ++ [(w.id, w)]).map (fun p => dumpWorkflow p.2))) := by
        rw [← hst, (add_or_update_job_fields _ _).2.1,
          save_workflows_ok
            (show ({ st with workflows := dictInsert st.workflows w.id w } :
              SysState).writeMode = WriteMode.ok from hwf)]
        rw [show ({ st with workflows := dictInsert st.workflows w.id w} :
              SysState).workflows = dictInsert st.workflows w.id w from rfl,
          dictInsert_of_absent w hnone]
      rw [hfile, mkManager_workflows]
      simp only [load_workflows]
      rw [List.map_append,
        show List.map (fun p => dumpWorkflow p.2) [(w.id, w)] = [dumpWorkflow w] from rfl,
        loadList_append_ok (validateWorkflow_dump w htrig)
          (List.map (fun p => dumpWorkflow p.2) st.workflows) []
          (by
            intro x hx
            rw [List.mem_map] at hx
            obtain ⟨p, -, hpx⟩ := hx
            exact ⟨dumpEntries p.2, hpx.symm⟩)]
      exact lookupD_dictInsert_self _ _ _

/-- Witness for C7: the spec example document survives the round trip. -/
theorem add_roundtrip_through_fresh_load_witness :
    lookupD (mkManager (add_workflow exFreshState exCronDoc "g").2.file
        WriteMode.ok).workflows "wf-daily" = some exCronWorkflow :=
  add_roundtrip_through_fresh_load exFreshState exCronDoc "g" exCronWorkflow
    (add_workflow exFreshState exCronDoc "g").2 rfl (by rfl)

theorem lookupD_filter_out {α : Type} (m : List (String × α)) (k : String) :
    lookupD (m.filter (fun p => p.1 != k)) k = none := by
  rw [lookupD_eq_none_iff]
  intro hmem
  rw [List.mem_map] at hmem
  obtain ⟨p, hp, hpk⟩ := hmem
  rw [List.mem_filter] at hp
  have hne := hp.2
  simp [hpk] at hne

/-- Counterexample to claim C2 as stated: an enabled cron workflow whose
expression has six whitespace-separated fields passes validation, yet
add_or_update_job leaves no job under its id, because the job engine call
`CronTrigger.from_crontab` compiles only the classic 5-field form and the
resulting exception is caught and logged. -/
theorem six_field_cron_never_scheduled :
    validateWorkflow (.dict exSixFieldDoc) = .ok exSixFieldWorkflow ∧
    exSixFieldWorkflow.is_enabled = true ∧
    exSixFieldWorkflow.trigger.trigger_type = "cron" ∧
    (pySplit "* * * * * *").length = 6 ∧
    lookupD (add_or_update_job exFreshState exSixFieldWorkflow).jobs "wf-six" = none :=
  ⟨by rfl, rfl, rfl, by decide, by rfl⟩

/-- Claim C2 amended: for every workflow that passes validation, is enabled,
has a cron trigger, and whose cron_expression is a string that
`CronTrigger.from_crontab` accepts (exactly 5 whitespace-separated fields,
each compiling as a crontab field), reconciling via add_or_update_job puts
the job with the workflow id into the job table; subsequently updating the
workflow to is_enabled=false, which reconciles again, removes that job. -/
theorem reconcile_schedules_and_disable_unschedules :
    ∀ (doc : Value) (w : Workflow) (s : String),
      validateWorkflow doc = .ok w →
      w.is_enabled = true →
      w.trigger.trigger_type = "cron" →
      lookupD w.trigger.config "cron_expression" = some (.str s) →
      fromCrontabOk s = true →
      (∀ st : SysState, lookupD (add_or_update_job st w).jobs w.id = some w) ∧
      (∀ st₁ : SysState, lookupD st₁.workflows w.id = some w →
        ∃ st₂, update_workflow st₁ w.id [("is_enabled", .bool false)] =
          (some { w with is_enabled := false }, st₂) ∧
          lookupD st₂.jobs w.id = none) := by
  intro doc w s hv hen hct hl hfc
  have hsched : isScheduledCron w = true := by
    simp [isScheduledCron, hen, hct]
  have hg : goodCron w := fun _ => ⟨s, hl, hfc⟩
  have htrig : TriggerOk w.trigger := validateWorkflow_ok_TriggerOk hv
  constructor
  · intro st
    rw [add_or_update_job_sched hg hsched]
    exact lookupD_dictInsert_self _ _ _
  · intro st₁ hmem
    have hval : validateWorkflow (.dict (mergedDoc w [("is_enabled", .bool false)] w.id)) =
        .ok { w with is_enabled := false } := by
      have hm : Value.dict (mergedDoc w [("is_enabled", .bool false)] w.id) =
          dumpWorkflow { w with is_enabled := false } := rfl
      rw [hm]
      exact validateWorkflow_dump { w with is_enabled := false } htrig
    have hred : update_workflow st₁ w.id [("is_enabled", .bool false)] =
        (match validateWorkflow (.dict (mergedDoc w [("is_enabled", .bool false)] w.id)) with
         | .error _ => ((none : Option Workflow), st₁)
         | .ok w2 => (some w2, add_or_update_job (save_workflows
             { st₁ with workflows := dictInsert st₁.workflows w.id w2 }) w2)) := by
      simp only [update_workflow]
      rw [hmem]
    rw [hred, hval]
    have hsched2 : isScheduledCron { w with is_enabled := false } = false := rfl
    refine ⟨_, rfl, ?_⟩
    rw [add_or_update_job_unsched hsched2]
    exact lookupD_filter_out _ _

/-- Witness for the amended C2: the spec example workflow gets its job, and
disabling it through update removes the job. -/
theorem reconcile_schedules_and_disable_unschedules_witness :
    lookupD (add_or_update_job exFreshState exCronWorkflow).jobs "wf-daily" =
      some exCronWorkflow ∧
    ∃ st₂, update_workflow (add_workflow exFreshState exCronDoc "g").2 "wf-daily"
        [("is_enabled", .bool false)] =
      (some { exCronWorkflow with is_enabled := false }, st₂) ∧
      lookupD st₂.jobs "wf-daily" = none := by
  have h := reconcile_schedules_and_disable_unschedules (.dict exCronDoc) exCronWorkflow
    "0 8 * * *" (by rfl) rfl rfl (by rfl) (by decide)
  exact ⟨h.1 exFreshState, h.2 (add_workflow exFreshState exCronDoc "g").2 (by rfl)⟩

-- ---- Membership in id sets -------------------------------------------

theorem mem_dictInsert_or {α : Type} {m : List (String × α)} {k : String} {v : α} {p} 
    (h : p ∈ dictInsert m k v) : p ∈ m ∨ p = (k, v) := by
  induction m with
  | nil =>
    simp [dictInsert] at h
    exact Or.inr h
  | cons q rest ih =>
    obtain ⟨k0, v0⟩ := q
    by_cases hk : k0 = k
    · simp only [dictInsert, hk, if_pos rfl] at h
      rcases List.mem_cons.mp h with h | h
      · exact Or.inr h
      · exact Or.inl (List.mem_cons_of_mem _ h)
    · simp only [dictInsert, hk, if_false] at h
      rcases List.mem_cons.mp h with h | h
      · exact Or.inl (h ▸ List.mem_cons_self _ _)
      · rcases ih h with h | h
        · exact Or.inl (List.mem_cons_of_mem _ h)
        · exact Or.inr h

theorem keys_filter_out {α : Type} (m : List (String × α)) (k i : String) :
    i ∈ (m.filter (fun p => p.1 != k)).map Prod.fst ↔
      (i ∈ m.map Prod.fst ∧ i ≠ k) := by
  constructor
  · intro h
    rw [List.mem_map] at h
    obtain ⟨p, hp, hpi⟩ := h
    rw [List.mem_filter] at hp
    refine ⟨List.mem_map.mpr ⟨p, hp.1, hpi⟩, ?_⟩
    have hb := hp.2
    rw [hpi] at hb
    exact bne_iff_ne.mp hb
  · intro h
    obtain ⟨h1, h2⟩ := h
    rw [List.mem_map] at h1 ⊢
    obtain ⟨p, hp, hpi⟩ := h1
    refine ⟨p, List.mem_filter.mpr ⟨hp, ?_⟩, hpi⟩
    rw [hpi]
    exact bne_iff_ne.mpr h2

theorem mem_enabledCronIds {ws : List (String × Workflow)} {i : String} :
    i ∈ enabledCronIds ws ↔ ∃ p ∈ ws, p.1 = i ∧ isScheduledCron p.2 = true := by
  unfold enabledCronIds
  constructor
  · intro h
    rw [List.mem_map] at h
    obtain ⟨p, hp, hpi⟩ := h
    rw [List.mem_filter] at hp
    exact ⟨p, hp.1, hpi, hp.2⟩
  · intro h
    obtain ⟨p, hpm, hpi, hsc⟩ := h
    rw [List.mem_map]
    exact ⟨p, List.mem_filter.mpr ⟨hpm, hsc⟩, hpi⟩

theorem enabledCronIds_subset_keys {ws : List (String × Workflow)} {i : String}
    (h : i ∈ enabledCronIds ws) : i ∈ ws.map Prod.fst := by
  obtain ⟨p, hpm, hpi, _⟩ := mem_enabledCronIds.mp h
  exact List.mem_map.mpr ⟨p, hpm, hpi⟩

theorem mem_enabledCronIds_append_single {ws : List (String × Workflow)} {k i : String}
    {w : Workflow} :
    i ∈ enabledCronIds (ws ++ [(k, w)]) ↔
      i ∈ enabledCronIds ws ∨ (isScheduledCron w = true ∧ i = k) := by
  rw [mem_enabledCronIds]
  constructor
  · intro h
    obtain ⟨p, hpm, hpi, hsc⟩ := h
    rcases List.mem_append.mp hpm with hm | hm
    · exact Or.inl (mem_enabledCronIds.mpr ⟨p, hm, hpi, hsc⟩)
    · rw [List.mem_singleton] at hm
      subst hm
      exact Or.inr ⟨hsc, hpi.symm⟩
  · intro h
    rcases h with h | ⟨hsc, hik⟩
    · obtain ⟨p, hpm, hpi, hsc⟩ := mem_enabledCronIds.mp h
      exact ⟨p, List.mem_append.mpr (Or.inl hpm), hpi, hsc⟩
    · exact ⟨(k, w), List.mem_append.mpr (Or.inr (List.mem_singleton.mpr rfl)), hik.symm, hsc⟩

theorem mem_enabledCronIds_filter_out {ws : List (String × Workflow)} {k i : String} :
    i ∈ enabledCronIds (ws.filter (fun p => p.1 != k)) ↔
      (i ∈ enabledCronIds ws ∧ i ≠ k) := by
  rw [mem_enabledCronIds]
  constructor
  · intro h
    obtain ⟨p, hpm, hpi, hsc⟩ := h
    rw [List.mem_filter] at hpm
    refine ⟨mem_enabledCronIds.mpr ⟨p, hpm.1, hpi, hsc⟩, ?_⟩
    have hb := hpm.2
    rw [hpi] at hb
    exact bne_iff_ne.mp hb
  · intro h
    obtain ⟨h1, h2⟩ := h
    obtain ⟨p, hpm, hpi, hsc⟩ := mem_enabledCronIds.mp h1
    refine ⟨p, List.mem_filter.mpr ⟨hpm, ?_⟩, hpi, hsc⟩
    rw [hpi]
    exact bne_iff_ne.mpr h2

theorem mem_enabledCronIds_cons {p : String × Workflow} {rest : List (String × Workflow)}
    {i : String} :
    i ∈ enabledCronIds (p :: rest) ↔
      (isScheduledCron p.2 = true ∧ i = p.1) ∨ i ∈ enabledCronIds rest := by
  rw [mem_enabledCronIds, mem_enabledCronIds]
  constructor
  · intro h
    obtain ⟨q, hqm, hqi, hsc⟩ := h
    rcases List.mem_cons.mp hqm with hq | hq
    · subst hq
      exact Or.inl ⟨hsc, hqi.symm⟩
    · exact Or.inr ⟨q, hq, hqi, hsc⟩
  · intro h
    rcases h with ⟨hsc, hip⟩ | ⟨q, hq, hqi, hsc⟩
    · exact ⟨p, List.mem_cons_self _ _, hip.symm, hsc⟩
    · exact ⟨q, List.mem_cons_of_mem _ hq, hqi, hsc⟩

theorem mem_dictInsert_iff {α : Type} {k : String} {w : α} {p : String × α} :
    ∀ ws : List (String × α), (ws.map Prod.fst).Nodup →
      (p ∈ dictInsert ws k w ↔ ((p ∈ ws ∧ p.1 ≠ k) ∨ p = (k, w)))
  | [], _ => by simp [dictInsert]
  | (k0, v0) :: rest, hnd => by
    rw [List.map_cons, List.nodup_cons] at hnd
    obtain ⟨hk0, hndr⟩ := hnd
    by_cases hk : k0 = k
    · subst hk
      rw [show dictInsert ((k0, v0) :: rest) k0 w = (k0, w) :: rest from by simp [dictInsert]]
      constructor
      · intro h
        rcases List.mem_cons.mp h with h | h
        · exact Or.inr h
        · refine Or.inl ⟨List.mem_cons_of_mem _ h, ?_⟩
          intro hpk
          apply hk0
          rw [← hpk]
          exact List.mem_map.mpr ⟨p, h, rfl⟩
      · intro h
        rcases h with ⟨hm, hpk⟩ | h
        · rcases List.mem_cons.mp hm with h | h
          · exact absurd (by rw [h]) hpk
          · exact List.mem_cons_of_mem _ h
        · exact h ▸ List.mem_cons_self _ _
    · rw [show dictInsert ((k0, v0) :: rest) k w = (k0, v0) :: dictInsert rest k w from by
        simp [dictInsert, hk]]
      constructor
      · intro h
        rcases List.mem_cons.mp h with h | h
        · exact Or.inl ⟨h ▸ List.mem_cons_self _ _, by rw [h]; exact hk⟩
        · rcases (mem_dictInsert_iff rest hndr).mp h with ⟨hm, hpk⟩ | h
          · exact Or.inl ⟨List.mem_cons_of_mem _ hm, hpk⟩
          · exact Or.inr h
      · intro h
        rcases h with ⟨hm, hpk⟩ | h
        · rcases List.mem_cons.mp hm with h | h
          · exact h ▸ List.mem_cons_self _ _
          · exact List.mem_cons_of_mem _ ((mem_dictInsert_iff rest hndr).mpr (Or.inl ⟨h, hpk⟩))
        · exact List.mem_cons_of_mem _ ((mem_dictInsert_iff rest hndr).mpr (Or.inr h))

theorem mem_enabledCronIds_dictInsert {ws : List (String × Workflow)} {k i : String}
    {w : Workflow} (hnd : (ws.map Prod.fst).Nodup) :
    i ∈ enabledCronIds (dictInsert ws k w) ↔
      ((isScheduledCron w = true ∧ i = k) ∨ (i ∈ enabledCronIds ws ∧ i ≠ k)) := by
  rw [mem_enabledCronIds]
  constructor
  · intro h
    obtain ⟨p, hpm, hpi, hsc⟩ := h
    rcases (mem_dictInsert_iff ws hnd).mp hpm with ⟨hm, hpk⟩ | hpkw
    · exact Or.inr ⟨mem_enabledCronIds.mpr ⟨p, hm, hpi, hsc⟩, hpi ▸ hpk⟩
    · subst hpkw
      exact Or.inl ⟨hsc, hpi.symm⟩
  · intro h
    rcases h with ⟨hsc, hik⟩ | ⟨h1, h2⟩
    · subst hik
      exact ⟨(i, w), (mem_dictInsert_iff ws hnd).mpr (Or.inr rfl), rfl, hsc⟩
    · obtain ⟨p, hpm, hpi, hsc⟩ := mem_enabledCronIds.mp h1
      exact ⟨p, (mem_dictInsert_iff ws hnd).mpr (Or.inl ⟨hpm, hpi ▸ h2⟩), hpi, hsc⟩

-- ---- Key and id bookkeeping of load and startup reseed ---------------

theorem keysMatch_dictInsert {m : List (String × Workflow)} {w : Workflow}
    (h : ∀ p ∈ m, p.1 = p.2.id) : ∀ p ∈ dictInsert m w.id w, p.1 = p.2.id := by
  intro p hp
  rcases mem_dictInsert_or hp with hm | he
  · exact h p hm
  · rw [he]

theorem loadList_keysMatch : ∀ (items : List Value) (acc : List (String × Workflow)),
    (∀ p ∈ acc, p.1 = p.2.id) → ∀ p ∈ loadList items acc, p.1 = p.2.id
  | [], acc, hacc => hacc
  | d :: rest, acc, hacc => by
    rcases d with _ | _ | _ | _ | _ | entries
    case dict =>
      simp only [loadList]
      rcases hv : validateWorkflow (.dict entries) with e | w
      · exact loadList_keysMatch rest acc hacc
      · exact loadList_keysMatch rest _ (keysMatch_dictInsert hacc)
    all_goals exact hacc

theorem load_keysMatch (f : FileContent) : ∀ p ∈ load_workflows f, p.1 = p.2.id := by
  rcases f with _ | _ | v
  · intro p hp
    exact absurd hp (List.not_mem_nil p)
  · intro p hp
    exact absurd hp (List.not_mem_nil p)
  · rcases v with _ | _ | _ | _ | items | _
    case list =>
      exact loadList_keysMatch items [] (fun p hp => absurd hp (List.not_mem_nil p))
    all_goals intro p hp
    all_goals exact absurd hp (List.not_mem_nil p)

theorem add_or_update_job_jobIds_sched {st : SysState} {w : Workflow}
    (hg : goodCron w) (hs : isScheduledCron w = true) (i : String) :
    i ∈ jobIds (add_or_update_job st w) ↔ i = w.id ∨ i ∈ jobIds st := by
  rw [add_or_update_job_sched hg hs]
  unfold jobIds
  exact keys_dictInsert _ _ _ _

theorem add_or_update_job_jobIds_unsched {st : SysState} {w : Workflow}
    (hs : isScheduledCron w = false) (i : String) :
    i ∈ jobIds (add_or_update_job st w) ↔ (i ∈ jobIds st ∧ i ≠ w.id) := by
  rw [add_or_update_job_unsched hs]
  unfold jobIds remove_job
  exact keys_filter_out _ _ _

theorem initJobs_jobIds : ∀ (ws : List (String × Workflow)) (st : SysState),
    (∀ p ∈ ws, goodCron p.2) → (∀ p ∈ ws, p.1 = p.2.id) →
    ∀ i, i ∈ jobIds (initJobs st ws) ↔ (i ∈ jobIds st ∨ i ∈ enabledCronIds ws)
  | [], st, _, _, i => by
    simp only [initJobs]
    constructor
    · exact Or.inl
    · intro h
      rcases h with h | h
      · exact h
      · exact absurd (enabledCronIds_subset_keys h) (by simp)
  | p :: rest, st, hg, hkm, i => by
    simp only [initJobs]
    have hgr : ∀ q ∈ rest, goodCron q.2 := fun q hq => hg q (List.mem_cons_of_mem _ hq)
    have hkr : ∀ q ∈ rest, q.1 = q.2.id := fun q hq => hkm q (List.mem_cons_of_mem _ hq)
    by_cases hs : isScheduledCron p.2 = true
    case neg =>
      have hs' : isScheduledCron p.2 = false := by
        cases h : isScheduledCron p.2
        · rfl
        · exact absurd h hs
      rw [if_neg hs]
      rw [initJobs_jobIds rest st hgr hkr i, mem_enabledCronIds_cons, hs']
      constructor
      · intro h
        rcases h with h | h
        · exact Or.inl h
        · exact Or.inr (Or.inr h)
      · intro h
        rcases h with h | h
        · exact Or.inl h
        · rcases h with ⟨habs, _⟩ | h
          · exact absurd habs (by simp)
          · exact Or.inr h
    case pos =>
      rw [if_pos hs]
      rw [initJobs_jobIds rest _ hgr hkr i,
        add_or_update_job_jobIds_sched (hg p (List.mem_cons_self _ _)) hs i,
        mem_enabledCronIds_cons, hs, ← hkm p (List.mem_cons_self _ _)]
      constructor
      · intro h
        rcases h with h | h
        · rcases h with h | h
          · exact Or.inr (Or.inl ⟨rfl, h⟩)
          · exact Or.inl h
        · exact Or.inr (Or.inr h)
      · intro h
        rcases h with h | h
        · exact Or.inl (Or.inr h)
        · rcases h with ⟨_, h⟩ | h
          · exact Or.inl (Or.inl h)
          · exact Or.inr h

theorem mkManager_SchedInv (f : FileContent) (m : WriteMode)
    (hg : ∀ p ∈ load_workflows f, goodCron p.2) : SchedInv (mkManager f m) := by
  intro i
  simp only [mkManager]
  rw [initJobs_jobIds (load_workflows f) _ hg (load_keysMatch f) i,
    (initJobs_skeleton (load_workflows f) _).1]
  constructor
  · intro h
    rcases h with h | h
    · exact absurd h (by simp [jobIds])
    · exact h
  · exact Or.inr

/-- Counterexample to claim C1 as stated: adding an enabled six-field cron
workflow (which validation accepts) completes, after which the stored
enabled-cron id set contains the id while the scheduler job table does not,
because the job engine compiles only 5-field crontab strings; the
reconciliation invariant is broken right after a completed add_workflow. -/
theorem reconciliation_invariant_counterexample :
    (add_workflow exFreshState exSixFieldDoc "unused-uuid").1 = some exSixFieldWorkflow ∧
    "wf-six" ∈ enabledCronIds exSixFieldState.workflows ∧
    "wf-six" ∉ jobIds exSixFieldState ∧
    ¬ SchedInv exSixFieldState := by
  refine ⟨by rfl, by decide, by decide, ?_⟩
  intro h
  have h1 : "wf-six" ∈ enabledCronIds exSixFieldState.workflows := by decide
  exact absurd ((h "wf-six").mpr h1) (by decide)

/-- Claim C1 amended: the reconciliation invariant - the ids with a job in
the scheduler job table are exactly the ids of stored workflows that are
enabled with a cron trigger - holds after construction (load plus startup
reseed) and is preserved by every completed add_workflow, update_workflow
and delete_workflow call, provided each affected enabled cron workflow (and,
at construction, each loaded one) carries a cron_expression the job engine
can register: a string `CronTrigger.from_crontab` accepts, i.e. exactly 5
whitespace-separated fields, each compiling as a crontab field.  Without
that proviso the invariant fails, since validation accepts expressions the
job engine rejects - the 6-field form, and 5-field forms with out-of-range
or unrecognized fields. -/
theorem reconciliation_invariant :
    (∀ (f : FileContent) (m : WriteMode),
      (∀ p ∈ load_workflows f, goodCron p.2) → SchedInv (mkManager f m)) ∧
    (∀ (st : SysState) (doc : List (String × Value)) (g : String) (r : Option Workflow)
       (st' : SysState),
      SchedInv st → add_workflow st doc g = (r, st') →
      (∀ w, r = some w → goodCron w) → SchedInv st') ∧
    (∀ (st : SysState) (wid : String) (u : List (String × Value)) (r : Option Workflow)
       (st' : SysState),
      (st.workflows.map Prod.fst).Nodup →
      SchedInv st → update_workflow st wid u = (r, st') →
      (∀ w, r = some w → goodCron w) → SchedInv st') ∧
    (∀ (st : SysState) (wid : String) (b : Bool) (st' : SysState),
      SchedInv st → delete_workflow st wid = (b, st') → SchedInv st') := by
  refine ⟨mkManager_SchedInv, ?_, ?_, ?_⟩
  · intro st doc g r st' hinv hadd hgw
    simp only [add_workflow] at hadd
    split at hadd
    case _ =>
      rw [Prod.mk.injEq] at hadd
      rw [← hadd.2]
      exact hinv
    case _ w0 hv =>
      split at hadd
      case _ hdup =>
        rw [Prod.mk.injEq] at hadd
        rw [← hadd.2]
        exact hinv
      case _ hdup =>
        rw [Prod.mk.injEq] at hadd
        obtain ⟨hr, hst⟩ := hadd
        have hg0 : goodCron w0 := hgw w0 hr.symm
        have hnone : lookupD st.workflows w0.id = none := by
          cases hl : lookupD st.workflows w0.id
          · rfl
          · rw [hl] at hdup
            simp at hdup
        have hnotek : w0.id ∉ st.workflows.map Prod.fst := (lookupD_eq_none_iff _ _).mp hnone
        intro i
        rw [← hst]
        have hw1 : (add_or_update_job (save_workflows
            { st with workflows := dictInsert st.workflows w0.id w0 }) w0).workflows =
            st.workflows ++ [(w0.id, w0)] := by
          rw [(add_or_update_job_fields _ _).1, (save_workflows_parts _).1]
          exact dictInsert_of_absent w0 hnone
        have hj : jobIds (save_workflows
            { st with workflows := dictInsert st.workflows w0.id w0 }) = jobIds st := by
          unfold jobIds
          rw [(save_workflows_parts _).2.1]
        rw [hw1]
        by_cases hs : isScheduledCron w0 = true
        · rw [add_or_update_job_jobIds_sched hg0 hs i, hj, hinv i,
            mem_enabledCronIds_append_single, hs]
          constructor
          · intro h
            rcases h with h | h
            · exact Or.inr ⟨rfl, h⟩
            · exact Or.inl h
          · intro h
            rcases h with h | ⟨_, h⟩
            · exact Or.inr h
            · exact Or.inl h
        · have hs' : isScheduledCron w0 = false := by
            cases h : isScheduledCron w0
            · rfl
            · exact absurd h hs
          rw [add_or_update_job_jobIds_unsched hs' i, hj, hinv i,
            mem_enabledCronIds_append_single, hs']
          constructor
          · intro h
            exact Or.inl h.1
          · intro h
            rcases h with h | ⟨habs, _⟩
            · refine ⟨h, ?_⟩
              intro hik
              rw [hik] at h
              exact hnotek (enabledCronIds_subset_keys h)
            · exact absurd habs (by simp)
  · intro st wid u r st' hnd hinv hupd hgw
    simp only [update_workflow] at hupd
    split at hupd
    case _ =>
      rw [Prod.mk.injEq] at hupd
      rw [← hupd.2]
      exact hinv
    case _ ex hex =>
      split at hupd
      case _ =>
        rw [Prod.mk.injEq] at hupd
        rw [← hupd.2]
        exact hinv
      case _ w0 hv =>
        rw [Prod.mk.injEq] at hupd
        obtain ⟨hr, hst⟩ := hupd
        have hg0 : goodCron w0 := hgw w0 hr.symm
        have hwid : w0.id = wid := by
          obtain ⟨xs, hxs, hid, _⟩ := validateWorkflow_ok_inv hv
          injection hxs with hxs'
          subst hxs'
          rw [mergedDoc_lookup_id] at hid
          injection hid with h1
          injection h1 with h2
          exact h2.symm
        intro i
        rw [← hst]
        have hw1 : (add_or_update_job (save_workflows
            { st with workflows := dictInsert st.workflows wid w0 }) w0).workflows =
            dictInsert st.workflows wid w0 := by
          rw [(add_or_update_job_fields _ _).1, (save_workflows_parts _).1]
        have hj : jobIds (save_workflows
            { st with workflows := dictInsert st.workflows wid w0 }) = jobIds st := by
          unfold jobIds
          rw [(save_workflows_parts _).2.1]
        rw [hw1, mem_enabledCronIds_dictInsert hnd]
        by_cases hs : isScheduledCron w0 = true
        · rw [add_or_update_job_jobIds_sched hg0 hs i, hj, hinv i, hwid, hs]
          constructor
          · intro h
            rcases h with h | h
            · exact Or.inl ⟨rfl, h⟩
            · by_cases hik : i = wid
              · exact Or.inl ⟨rfl, hik⟩
              · exact Or.inr ⟨h, hik⟩
          · intro h
            rcases h with ⟨_, h⟩ | ⟨h, _⟩
            · exact Or.inl h
            · exact Or.inr h
        · have hs' : isScheduledCron w0 = false := by
            cases h : isScheduledCron w0
            · rfl
            · exact absurd h hs
          rw [add_or_update_job_jobIds_unsched hs' i, hj, hinv i, hwid, hs']
          constructor
          · intro h
            exact Or.inr h
          · intro h
            rcases h with ⟨habs, _⟩ | h
            · exact absurd habs (by simp)
            · exact h
  · intro st wid b st' hinv hdel
    unfold delete_workflow at hdel
    split at hdel
    case _ hfound =>
      rw [Prod.mk.injEq] at hdel
      obtain ⟨_, hst⟩ := hdel
      intro i
      rw [← hst]
      have hw1 : (remove_job (save_workflows
          { st with workflows := st.workflows.filter (fun p => p.1 != wid) }) wid).workflows =
          st.workflows.filter (fun p => p.1 != wid) := by
        rw [(remove_job_fields _ _).1, (save_workflows_parts _).1]
      have hj : jobIds (remove_job (save_workflows
          { st with workflows := st.workflows.filter (fun p => p.1 != wid) }) wid) =
          (st.jobs.filter (fun p => p.1 != wid)).map Prod.fst := by
        unfold jobIds remove_job
        rw [(save_workflows_parts _).2.1]
      rw [hw1, hj, keys_filter_out, mem_enabledCronIds_filter_out]
      constructor
      · intro h
        exact ⟨(hinv i).mp h.1, h.2⟩
      · intro h
        exact ⟨(hinv i).mpr h.1, h.2⟩
    case _ =>
      rw [Prod.mk.injEq] at hdel
      rw [← hdel.2]
      exact hinv

/-- Witness for the amended C1: a manager constructed over a file holding the
spec example workflow (a 5-field cron) satisfies the reconciliation
invariant. -/
theorem reconciliation_invariant_witness :
    SchedInv (mkManager (.json (.list [.dict exCronDoc])) WriteMode.ok) := by
  apply reconciliation_invariant.1
  intro p hp
  have hl : load_workflows (.json (.list [.dict exCronDoc])) =
      [("wf-daily", exCronWorkflow)] := by rfl
  rw [hl] at hp
  have hpe : p = ("wf-daily", exCronWorkflow) := by simpa using hp
  rw [hpe]
  intro _
  exact ⟨"0 8 * * *", rfl, by decide⟩

end Jbro
